import Mathlib

/-!
Verification of the Zaphod course-synchronization scripts.

This file is a shallow embedding, in Lean 4, of the reconciliation,
module-placement and rubric workflows of the repository:

* `Prune` embeds `shared/scripts/prune_canvas_content.py`
  (reconciliation of remote pages/assignments against local names,
  dry-run / apply pruning).
* `SyncModules` embeds `shared/scripts/sync_modules.py`
  (idempotent module-item placement keyed by identity, not title).
* `RubricsInline` embeds `zaphod/sync_rubrics.py`
  (inline rubric payload building and per-folder processing).
* `RubricsShared` embeds `shared/scripts/sync_rubrics.py`
  (rubric parameter building with outcome-code alignment).
* `RubricsCsv` embeds `zaphod/scripts/sync_rubrics.py`
  (CSV rendering for the asynchronous rubric-upload path and the
  upload-status polling loop).

Modelling conventions:
* Python sets of strings are modelled as deduplicated lists; set
  difference is membership-based filtering.
* Network effects (prints, delete calls, module-item creation) are
  reified as explicit event values returned alongside the new state.
* Python exceptions are values of `PyError`; the distinction that
  matters is `PyError.isException`, true exactly for the subclasses of
  `Exception` (an `except Exception` handler catches those), and false
  for `SystemExit`, which subclasses only `BaseException`.
* Numeric point values (Python floats fed from YAML/JSON) are modelled
  as rationals; `str(...)` rendering of numbers is kept as the rational
  value wrapped in a payload-value constructor.
* Wall-clock time in the polling loop is modelled by an explicit
  elapsed-time stamp carried by each polled response.
-/

/-- Byte-wise comparison of char lists, used to model Python `sorted()`
on strings (lexicographic by code point). -/
def charListLe : List Char → List Char → Bool
  | [], _ => true
  | _ :: _, [] => false
  | a :: as, b :: bs =>
      if a.toNat < b.toNat then true
      else if b.toNat < a.toNat then false
      else charListLe as bs

/-- Lexicographic order on strings by code point. -/
def strLe (a b : String) : Bool := charListLe a.data b.data

/-- Insert a string into a sorted list (model of Python `sorted`). -/
def insertSorted (x : String) : List String → List String
  | [] => [x]
  | y :: ys => if strLe x y then x :: y :: ys else y :: insertSorted x ys

/-- Sort a list of strings ascending, as Python `sorted()` does. -/
def sortNames (l : List String) : List String := l.foldr insertSorted []

/-- Lower-casing of a string, modelling Python `str.lower()`. -/
def lowerString (s : String) : String := ⟨s.data.map Char.toLower⟩

/-- Python exception values relevant to these scripts.  `isException`
below records which of them an `except Exception` handler catches. -/
inductive PyError
  | systemExit (msg : String)
  | runtimeError (msg : String)
  | fileNotFound (msg : String)
  | timeoutError (msg : String)
  | valueError (msg : String)
deriving DecidableEq

/-- Whether the error is a subclass of Python `Exception` (and hence is
caught by an `except Exception` handler).  `SystemExit` subclasses only
`BaseException`, so it is not caught. -/
def PyError.isException : PyError → Bool
  | .systemExit _ => false
  | .runtimeError _ => true
  | .fileNotFound _ => true
  | .timeoutError _ => true
  | .valueError _ => true

namespace Prune

/-- A Canvas page as seen by `prune_canvas_content.py` (only the title
is consulted). -/
structure CanvasPage where
  title : String
deriving DecidableEq

/-- A Canvas assignment as seen by `prune_canvas_content.py`. -/
structure CanvasAssignment where
  name : String
deriving DecidableEq

/-- `load_canvas_sets`: `{p.title for p in course.get_pages()}` as a
deduplicated list. -/
def canvasPageNames (pages : List CanvasPage) : List String :=
  (pages.map CanvasPage.title).dedup

/-- `load_canvas_sets`: `{a.name for a in course.get_assignments()}` as a
deduplicated list. -/
def canvasAssignmentNames (assigns : List CanvasAssignment) : List String :=
  (assigns.map CanvasAssignment.name).dedup

/-- Python set difference `a - b` on name sets, membership-based and
case-sensitive (exact string equality). -/
def setDiff (a b : List String) : List String :=
  a.filter (fun x => decide (x ∉ b))

/-- Observable events of one prune run: every print that names an
object, the dry-run notes, and each issued delete call. -/
inductive PruneEvent
  | noExtraPages
  | extraPageReported (title : String)
  | pagesDryRunNote
  | pageDeleteAttempt (title : String)
  | noExtraAssignments
  | extraAssignmentReported (name : String)
  | assignmentsDryRunNote
  | assignmentDeleteAttempt (name : String)
  | assignmentsNotDeletedNote
deriving DecidableEq

/-- `delete_extra_pages(course, extra_pages, apply)`: report the sorted
extra titles; without `apply` stop at the dry-run note, with `apply`
issue one delete call per Canvas page whose title is extra. -/
def delete_extra_pages (pages : List CanvasPage) (extra_pages : List String)
    (apply : Bool) : List PruneEvent :=
  if extra_pages.isEmpty then [.noExtraPages]
  else
    let reports := (sortNames extra_pages).map PruneEvent.extraPageReported
    if !apply then reports ++ [.pagesDryRunNote]
    else reports ++
      (pages.filter (fun p => extra_pages.contains p.title)).map
        (fun p => PruneEvent.pageDeleteAttempt p.title)

/-- `delete_extra_assignments(course, extra_assignments, apply)`:
mirror of `delete_extra_pages` for assignments. -/
def delete_extra_assignments (assigns : List CanvasAssignment)
    (extra_assignments : List String) (apply : Bool) : List PruneEvent :=
  if extra_assignments.isEmpty then [.noExtraAssignments]
  else
    let reports :=
      (sortNames extra_assignments).map PruneEvent.extraAssignmentReported
    if !apply then reports ++ [.assignmentsDryRunNote]
    else reports ++
      (assigns.filter (fun a => extra_assignments.contains a.name)).map
        (fun a => PruneEvent.assignmentDeleteAttempt a.name)

/-- `extra_pages = canvas_page_names - local_page_names` from `main`. -/
def extraPagesOf (localPages : List String) (pages : List CanvasPage) :
    List String :=
  setDiff (canvasPageNames pages) localPages

/-- `extra_assignments = canvas_assignment_names - local_assignment_names`
from `main`. -/
def extraAssignmentsOf (localAssignments : List String)
    (assigns : List CanvasAssignment) : List String :=
  setDiff (canvasAssignmentNames assigns) localAssignments

/-- The reconciliation part of `main`: compute the extras and run the
two delete helpers under the `--apply` / `--include-assignments` flags.
When assignments are not included but extras exist, only the
"not deleted" note is printed. -/
def pruneMain (localPages localAssignments : List String)
    (pages : List CanvasPage) (assigns : List CanvasAssignment)
    (apply includeAssignments : Bool) : List PruneEvent :=
  let extra_pages := extraPagesOf localPages pages
  let extra_assignments := extraAssignmentsOf localAssignments assigns
  delete_extra_pages pages extra_pages apply ++
    (if includeAssignments then
      delete_extra_assignments assigns extra_assignments apply
    else if !extra_assignments.isEmpty then [.assignmentsNotDeletedNote]
    else [])

/-- The page name an event mentions, if any. -/
def pageEventName : PruneEvent → Option String
  | .extraPageReported t => some t
  | .pageDeleteAttempt t => some t
  | _ => none

/-- The assignment name an event mentions, if any. -/
def assignmentEventName : PruneEvent → Option String
  | .extraAssignmentReported n => some n
  | .assignmentDeleteAttempt n => some n
  | _ => none

/-- Whether the event is an issued delete call. -/
def isDeleteEvent : PruneEvent → Bool
  | .pageDeleteAttempt _ => true
  | .assignmentDeleteAttempt _ => true
  | _ => false

/-- Whether the event is an assignment delete call. -/
def isAssignmentDelete : PruneEvent → Bool
  | .assignmentDeleteAttempt _ => true
  | _ => false

/-- Modelled from the spec: `missing = local_names − remote_names` for
pages, the set the specification says is reported as a warning.  The
source never computes this set; the definition follows the words of the
spec so the reporting claim can be stated against the run's events. -/
def specMissingPages (localPages : List String) (pages : List CanvasPage) :
    List String :=
  setDiff localPages (canvasPageNames pages)

end Prune

namespace SyncModules

/-- A Canvas page as consulted by `sync_modules.py` (`find_page` matches
on `title`; placement uses `url`). -/
structure MPage where
  title : String
  url : String
deriving DecidableEq

/-- A Canvas assignment as consulted by `find_assignment` (matched by
`name`; placement uses its `id` as the item `content_id`). -/
structure MAssignment where
  id : Nat
  name : String
deriving DecidableEq

/-- A Canvas file as consulted by `find_file` (matched by `filename`;
placement uses its `id` as the item `content_id`). -/
structure MFile where
  id : Nat
  filename : String
deriving DecidableEq

/-- A Canvas module item.  `page_url`, `content_id` and `external_url`
model the `getattr(item, ..., None)` accesses; `new_tab` is carried on
external-link items but never consulted for membership. -/
structure MItem where
  type : String
  title : String
  indent : Int
  page_url : Option String
  content_id : Option Nat
  external_url : Option String
  new_tab : Option Bool
deriving DecidableEq

/-- A Canvas module: a name and its ordered item list. -/
structure CModule where
  name : String
  items : List MItem
deriving DecidableEq

/-- The remote course state consulted and mutated by `sync_modules.py`:
pages, assignments and files are read-only lookups, modules are
mutated. -/
structure CourseState where
  pages : List MPage
  assignments : List MAssignment
  files : List MFile
  modules : List CModule
deriving DecidableEq

/-- `module_has_item`: an item of the given type pointing at the same
content is present.  Matching is by (type, identity key): `page_url`
for pages, `content_id` for assignments and files, `external_url` for
external links; any other type never matches. -/
def module_has_item (m : CModule) (item_type : String)
    (page_url : Option String) (content_id : Option Nat)
    (external_url : Option String) : Bool :=
  m.items.any fun item =>
    item.type == item_type &&
      (if item_type == "Page" then item.page_url == page_url
       else if item_type == "Assignment" || item_type == "File" then
         item.content_id == content_id
       else if item_type == "ExternalUrl" then
         item.external_url == external_url
       else false)

/-- The per-item predicate of `module_has_item`, factored out: does this
item carry the queried (type, identity key)? -/
def itemMatchesQuery (item : MItem) (item_type : String)
    (page_url : Option String) (content_id : Option Nat)
    (external_url : Option String) : Bool :=
  item.type == item_type &&
    (if item_type == "Page" then item.page_url == page_url
     else if item_type == "Assignment" || item_type == "File" then
       item.content_id == content_id
     else if item_type == "ExternalUrl" then
       item.external_url == external_url
     else false)

/-- `find_page`: first Canvas page whose title equals the given one. -/
def find_page (pages : List MPage) (title : String) : Option MPage :=
  pages.find? (fun p => p.title == title)

/-- `find_assignment`: first Canvas assignment with the given name. -/
def find_assignment (assigns : List MAssignment) (name : String) :
    Option MAssignment :=
  assigns.find? (fun a => a.name == name)

/-- `find_file`: first Canvas file with the given filename. -/
def find_file (files : List MFile) (filename : String) : Option MFile :=
  files.find? (fun f => f.filename == filename)

/-- Remote mutations issued by the synchronizer. -/
inductive ModuleMutation
  | createModule (name : String)
  | createModuleItem (moduleName : String) (item : MItem)
deriving DecidableEq

/-- `ensure_module`: find the first module with the given name or create
an (empty) one, returning the module, the new state and the issued
mutations. -/
def ensure_module (st : CourseState) (name : String) :
    CModule × CourseState × List ModuleMutation :=
  match st.modules.find? (fun m => m.name == name) with
  | some m => (m, st, [])
  | none =>
      let m : CModule := ⟨name, []⟩
      (m, { st with modules := st.modules ++ [m] }, [.createModule name])

/-- Append an item to the first module with the given name (model of
`module.create_module_item`, which Canvas appends to the module). -/
def addItemFirst (name : String) (item : MItem) :
    List CModule → List CModule
  | [] => []
  | m :: ms =>
      if m.name == name then { m with items := m.items ++ [item] } :: ms
      else m :: addItemFirst name item ms

/-- State after creating a module item in the named module. -/
def addItem (st : CourseState) (name : String) (item : MItem) : CourseState :=
  { st with modules := addItemFirst name item st.modules }

/-- The Page item `sync_page` creates for a page titled `t` with url `u`
at indent `i`. -/
def pageItem (t : String) (i : Int) (u : String) : MItem :=
  { type := "Page", title := t, indent := i, page_url := some u,
    content_id := none, external_url := none, new_tab := none }

/-- The Assignment item `sync_assignment` creates. -/
def assignmentItem (name : String) (i : Int) (content_id : Nat) : MItem :=
  { type := "Assignment", title := name, indent := i, page_url := none,
    content_id := some content_id, external_url := none, new_tab := none }

/-- The File item `sync_file_item` creates. -/
def fileItem (title : String) (i : Int) (content_id : Nat) : MItem :=
  { type := "File", title := title, indent := i, page_url := none,
    content_id := some content_id, external_url := none, new_tab := none }

/-- The ExternalUrl item `sync_link` creates. -/
def linkItem (name : String) (i : Int) (external_url : String)
    (new_tab : Bool) : MItem :=
  { type := "ExternalUrl", title := name, indent := i, page_url := none,
    content_id := none, external_url := some external_url,
    new_tab := some new_tab }

/-- The body every sync function's per-module loop shares: find-or-create
the module, then create `item` unless an item with the same
(type, identity key) is already present.  The membership query and the
created item are what distinguish the four content kinds. -/
def syncItemModule (st : CourseState) (item_type : String)
    (page_url : Option String) (content_id : Option Nat)
    (external_url : Option String) (item : MItem) (mname : String) :
    List ModuleMutation × CourseState :=
  match ensure_module st mname with
  | (module, st1, muts0) =>
    if module_has_item module item_type page_url content_id external_url then
      (muts0, st1)
    else (muts0 ++ [.createModuleItem mname item], addItem st1 mname item)

/-- The loop over the declared module names, threading the course state
and accumulating the issued mutations in order. -/
def syncItemModules (item_type : String) (page_url : Option String)
    (content_id : Option Nat) (external_url : Option String) (item : MItem) :
    CourseState → List String → List ModuleMutation × CourseState
  | st, [] => ([], st)
  | st, n :: ns =>
      match syncItemModule st item_type page_url content_id external_url
          item n with
      | (m1, st1) =>
        match syncItemModules item_type page_url content_id external_url
            item st1 ns with
        | (m2, st2) => (m1 ++ m2, st2)

/-- The body of `sync_page`'s per-module loop for one module name,
specialised from the shared body: the query and created item are keyed
by the page url. -/
def syncPageModule (st : CourseState) (title : String) (page_url : String)
    (indent : Int) (mname : String) : List ModuleMutation × CourseState :=
  syncItemModule st "Page" (some page_url) none none
    (pageItem title indent page_url) mname

/-- `sync_page`'s loop over the declared module names. -/
def syncPageModules (title : String) (page_url : String) (indent : Int)
    (st : CourseState) (ns : List String) :
    List ModuleMutation × CourseState :=
  syncItemModules "Page" (some page_url) none none
    (pageItem title indent page_url) st ns

/-- The `meta.json` fields the four sync functions read; each function
consults its own subset of the parsed dict, as the source does. -/
structure ContentMeta where
  type : Option String
  name : Option String
  modules : List String
  indent : Int
  filename : Option String
  title : Option String
  external_url : Option String
  new_tab : Bool
deriving DecidableEq

/-- `sync_page`: warn-and-return when the name is falsy, when no modules
are declared, or when no Canvas page carries the title; otherwise place
the page into each declared module, keyed by its `page_url`. -/
def sync_page (st : CourseState) (meta : ContentMeta) :
    List ModuleMutation × CourseState :=
  match meta.name with
  | none => ([], st)
  | some title =>
      if title = "" then ([], st)
      else if meta.modules.isEmpty then ([], st)
      else
        match find_page st.pages title with
        | none => ([], st)
        | some page => syncPageModules title page.url meta.indent st meta.modules

/-- `sync_assignment`: as `sync_page`, but looked up by assignment name
and keyed by `content_id`. -/
def sync_assignment (st : CourseState) (meta : ContentMeta) :
    List ModuleMutation × CourseState :=
  match meta.name with
  | none => ([], st)
  | some name =>
      if name = "" then ([], st)
      else if meta.modules.isEmpty then ([], st)
      else
        match find_assignment st.assignments name with
        | none => ([], st)
        | some assignment =>
            syncItemModules "Assignment" none (some assignment.id) none
              (assignmentItem name meta.indent assignment.id) st meta.modules

/-- `sync_file_item`: looked up by `filename`, titled
`meta.get("title", filename)`, keyed by `content_id`. -/
def sync_file_item (st : CourseState) (meta : ContentMeta) :
    List ModuleMutation × CourseState :=
  match meta.filename with
  | none => ([], st)
  | some filename =>
      if filename = "" then ([], st)
      else if meta.modules.isEmpty then ([], st)
      else
        match find_file st.files filename with
        | none => ([], st)
        | some file_obj =>
            syncItemModules "File" none (some file_obj.id) none
              (fileItem (meta.title.getD filename) meta.indent file_obj.id)
              st meta.modules

/-- `sync_link`: requires `external_url` and `name`, performs no remote
lookup, and is keyed by `external_url`; `new_tab` rides on the created
item only. -/
def sync_link (st : CourseState) (meta : ContentMeta) :
    List ModuleMutation × CourseState :=
  match meta.external_url, meta.name with
  | some external_url, some name =>
      if external_url = "" ∨ name = "" then ([], st)
      else if meta.modules.isEmpty then ([], st)
      else
        syncItemModules "ExternalUrl" none none (some external_url)
          (linkItem name meta.indent external_url meta.new_tab) st meta.modules
  | _, _ => ([], st)

/-- The per-folder dispatch of `main`: select the sync function by the
lower-cased `type`; an unsupported type is only warned about. -/
def syncFolder (st : CourseState) (meta : ContentMeta) :
    List ModuleMutation × CourseState :=
  if lowerString (meta.type.getD "") = "page" then sync_page st meta
  else if lowerString (meta.type.getD "") = "assignment" then
    sync_assignment st meta
  else if lowerString (meta.type.getD "") = "file" then
    sync_file_item st meta
  else if lowerString (meta.type.getD "") = "link" then sync_link st meta
  else ([], st)

/-- Whether the first module with the given name already holds an item
for the given (type, identity key) query. -/
def hasItem (st : CourseState) (mname : String) (item_type : String)
    (page_url : Option String) (content_id : Option Nat)
    (external_url : Option String) : Bool :=
  match st.modules.find? (fun m => m.name == mname) with
  | some m => module_has_item m item_type page_url content_id external_url
  | none => false

/-- Whether the first module with the given name already holds a Page
item for `url` (the identity key used by `module_has_item`). -/
def hasPage (st : CourseState) (mname : String) (url : String) : Bool :=
  hasItem st mname "Page" (some url) none none

/-- Retitle a module item (the display title changes, the identity keys
do not). -/
def retitleItem (f : String → String) (it : MItem) : MItem :=
  { it with title := f it.title }

/-- Retitle every item of a module. -/
def retitleModule (f : String → String) (m : CModule) : CModule :=
  { m with items := m.items.map (retitleItem f) }

end SyncModules

/-- One rating of a rubric criterion as read from `rubric.yaml` /
`rubric.json`.  `Option` fields model `dict.get` returning `None` for a
missing key. -/
structure RatingSpec where
  description : Option String
  long_description : Option String
  points : Option ℚ
deriving DecidableEq

/-- One criterion of a rubric spec.  This is the union of the fields the
three rubric scripts read; each script consults its own subset. -/
structure CriterionSpec where
  id : Option String
  kind : Option String
  description : Option String
  long_description : Option String
  points : Option ℚ
  use_range : Bool
  ratings : List RatingSpec
  outcome_code : Option String
  mastery_points : Option ℚ
  use_for_scoring : Option Bool
deriving DecidableEq

/-- The `association` block of a rubric spec (`rubric.get("association")
or {}` yields all-missing fields). -/
structure AssociationCfg where
  id : Option Nat
  purpose : Option String
  use_for_grading : Option Bool
deriving DecidableEq

/-- The association block with every key missing (Python `{}`). -/
def AssociationCfg.empty : AssociationCfg :=
  { id := none, purpose := none, use_for_grading := none }

/-- A parsed rubric spec.  The scripts read two different spellings of
the free-form flag (`free_form_criterion_comments` in the zaphod
variants, `free_form_comments` in the shared variant), so both are
carried.  `criteria` models `rubric.get("criteria") or []`. -/
structure RubricSpec where
  title : Option String
  free_form_criterion_comments : Bool
  free_form_comments : Bool
  association : Option AssociationCfg
  criteria : List CriterionSpec
deriving DecidableEq

namespace RubricsInline

/-- A Canvas assignment as consulted by the rubric scripts. -/
structure Assignment where
  id : Nat
  name : String
deriving DecidableEq

/-- A value of the form payload; Python renders everything with
`str(...)`, kept here as either the string or the rational it names. -/
inductive Value
  | s (v : String)
  | q (v : ℚ)
deriving DecidableEq

/-- The rating loop of `build_rubric_payload`: entries for ratings
`j, j+1, ...` of criterion `i`, or `SystemExit` when a rating misses
`description` or `points`. -/
def ratingEntries (i : Nat) (base : String) (j : Nat) :
    List RatingSpec → Except PyError (List (String × Value))
  | [] => .ok []
  | r :: rs =>
      match r.description, r.points with
      | some rd, some rp =>
          let rbase := base ++ "[ratings][" ++ toString j ++ "]"
          match ratingEntries i base (j + 1) rs with
          | .ok rest =>
              .ok ([(rbase ++ "[description]", Value.s rd),
                    (rbase ++ "[long_description]",
                      Value.s (r.long_description.getD "")),
                    (rbase ++ "[points]", Value.q rp)] ++ rest)
          | .error e => .error e
      | _, _ =>
          .error (.systemExit ("Criterion " ++ toString i ++ " rating " ++
            toString j ++ " must define description and points."))

/-- The criterion body of `build_rubric_payload`'s loop: entries for
criterion `i`, or `SystemExit` when `description`, `points` or a
non-empty `ratings` list is missing. -/
def criterionEntries (i : Nat) (crit : CriterionSpec) :
    Except PyError (List (String × Value)) :=
  if crit.description.isNone || crit.points.isNone || crit.ratings.isEmpty then
    .error (.systemExit ("Criterion " ++ toString i ++
      " must define description, points, and non-empty ratings."))
  else
    let base := "rubric[criteria][" ++ toString i ++ "]"
    match ratingEntries i base 0 crit.ratings with
    | .ok rest =>
        .ok ([(base ++ "[description]", Value.s (crit.description.getD "")),
              (base ++ "[long_description]",
                Value.s (crit.long_description.getD "")),
              (base ++ "[points]", Value.q (crit.points.getD 0)),
              (base ++ "[criterion_use_range]",
                Value.s (if crit.use_range then "1" else "0"))] ++ rest)
    | .error e => .error e

/-- `build_rubric_payload`'s enumeration over the criteria list. -/
def criteriaEntries (i : Nat) :
    List CriterionSpec → Except PyError (List (String × Value))
  | [] => .ok []
  | c :: cs =>
      match criterionEntries i c with
      | .ok e1 =>
          match criteriaEntries (i + 1) cs with
          | .ok rest => .ok (e1 ++ rest)
          | .error e => .error e
      | .error e => .error e

/-- `assoc_id = str(assoc_cfg.get("id") or assignment.id)`: a missing or
falsy (zero) configured id falls back to the assignment id. -/
def assocIdOf (cfg : AssociationCfg) (assignment : Assignment) : Nat :=
  match cfg.id with
  | some i => if i = 0 then assignment.id else i
  | none => assignment.id

/-- `build_rubric_payload` from `zaphod/sync_rubrics.py`: the form
fields for `POST .../rubrics`, or the `SystemExit` raised on a malformed
spec (missing `title`, empty `criteria`, or an invalid criterion or
rating). -/
def build_rubric_payload (rubric : RubricSpec) (assignment : Assignment) :
    Except PyError (List (String × Value)) :=
  match rubric.title with
  | none => .error (.systemExit "Rubric spec must define title.")
  | some title =>
      if title = "" then .error (.systemExit "Rubric spec must define title.")
      else if rubric.criteria.isEmpty then
        .error (.systemExit "Rubric spec must define a non-empty criteria list.")
      else
        let assoc := rubric.association.getD AssociationCfg.empty
        let assoc_id := assocIdOf assoc assignment
        let assoc_purpose := assoc.purpose.getD "grading"
        let assoc_use_for_grading := assoc.use_for_grading.getD true
        match criteriaEntries 0 rubric.criteria with
        | .ok centries =>
            .ok ([("title", Value.s title),
                  ("rubric_id", Value.s "new"),
                  ("rubric[title]", Value.s title),
                  ("rubric[free_form_criterion_comments]",
                    Value.s (if rubric.free_form_criterion_comments
                             then "1" else "0")),
                  ("rubric_association[association_type]",
                    Value.s "Assignment"),
                  ("rubric_association[association_id]",
                    Value.s (toString assoc_id)),
                  ("rubric_association[use_for_grading]",
                    Value.s (if assoc_use_for_grading then "1" else "0")),
                  ("rubric_association[purpose]", Value.s assoc_purpose),
                  ("rubric_association[title]", Value.s assignment.name)]
                 ++ centries)
        | .error e => .error e

/-- The `meta.json` fields `process_assignment_folder` reads. -/
structure Meta where
  type : Option String
  name : Option String
deriving DecidableEq

/-- Decidable equality for `Except`, needed to evaluate folder records
on concrete inputs. -/
instance {ε α : Type} [DecidableEq ε] [DecidableEq α] :
    DecidableEq (Except ε α) := fun x y =>
  match x, y with
  | .ok a, .ok b =>
      if h : a = b then isTrue (by rw [h])
      else isFalse (fun hc => h (Except.ok.inj hc))
  | .error a, .error b =>
      if h : a = b then isTrue (by rw [h])
      else isFalse (fun hc => h (Except.error.inj hc))
  | .ok _, .error _ => isFalse (fun hc => Except.noConfusion hc)
  | .error _, .ok _ => isFalse (fun hc => Except.noConfusion hc)

/-- One `.assignment` folder as the per-folder processing sees it.  The
filesystem- and network-dependent steps are carried as their results:
`meta` is the outcome of `load_meta`, `specLoad` of `load_rubric_spec`,
and `createResult` of `create_rubric_via_api` (the created rubric id). -/
structure Folder where
  hasRubricFile : Bool
  meta : Except PyError Meta
  specLoad : Except PyError RubricSpec
  createResult : Except PyError (Option Nat)
deriving DecidableEq

/-- What one folder's processing visibly did (each constructor is one of
the logged early returns or the success print). -/
inductive FolderOutcome
  | skippedNoRubric
  | errNoMeta
  | skippedWrongType
  | errNoName
  | errAssignmentNotFound
  | errSpecLoad
  | errInvalidSpec
  | errCreateFailed
  | created (rubricId : Option Nat)
deriving DecidableEq

/-- `process_assignment_folder` from `zaphod/sync_rubrics.py`.  Each
`try`/`except` of the source catches exactly the errors its handler
names: `load_meta` is guarded by `except FileNotFoundError`, the later
steps by `except Exception`.  An error no handler catches propagates as
`.error` and aborts the run. -/
def process_assignment_folder (course : List Assignment) (folder : Folder) :
    Except PyError FolderOutcome :=
  if !folder.hasRubricFile then .ok .skippedNoRubric
  else
    match folder.meta with
    | .error e =>
        match e with
        | .fileNotFound _ => .ok .errNoMeta
        | _ => .error e
    | .ok meta =>
        let ctype := lowerString (meta.type.getD "")
        if ctype ≠ "assignment" then .ok .skippedWrongType
        else
          match meta.name with
          | none => .ok .errNoName
          | some nm =>
              if nm = "" then .ok .errNoName
              else
                match course.find? (fun a => a.name == nm) with
                | none => .ok .errAssignmentNotFound
                | some assignment =>
                    match folder.specLoad with
                    | .error e =>
                        if e.isException then .ok .errSpecLoad else .error e
                    | .ok spec =>
                        match build_rubric_payload spec assignment with
                        | .error e =>
                            if e.isException then .ok .errInvalidSpec
                            else .error e
                        | .ok _payload =>
                            match folder.createResult with
                            | .error e =>
                                if e.isException then .ok .errCreateFailed
                                else .error e
                            | .ok rid => .ok (.created rid)

/-- The folder loop of `main`: process folders in order; an uncaught
error terminates the process, leaving the remaining folders
unprocessed. -/
def runFolders (course : List Assignment) :
    List Folder → List FolderOutcome × Option PyError
  | [] => ([], none)
  | f :: fs =>
      match process_assignment_folder course f with
      | .ok o =>
          match runFolders course fs with
          | (os, e) => (o :: os, e)
      | .error e => ([], some e)

end RubricsInline

namespace RubricsShared

/-- One rendered rating in the Canvas criterion parameters. -/
structure RatingParams where
  description : String
  points : ℚ
deriving DecidableEq

/-- The parameter dictionary built for one criterion by
`build_rubric_params`.  Optional fields model keys that are set only on
some paths: `ratings` only when the spec lists ratings, the outcome
fields only when an outcome code resolves.  `mastery_points` is set to
`crit.get("mastery_points", None)`, hence the nested option. -/
structure CritParams where
  description : String
  long_description : String
  criterion_use_range : Bool
  ratings : Option (List RatingParams)
  learning_outcome_id : Option Nat
  mastery_points : Option (Option ℚ)
  use_for_scoring : Option Bool
  points : Option ℚ
deriving DecidableEq

/-- `outcome_map.get(code)` on the outcome mapping, modelled as first
match in an association list. -/
def lookupOutcome (om : List (String × Nat)) (code : String) : Option Nat :=
  (om.find? (fun p => p.1 == code)).map Prod.snd

/-- The body of `build_rubric_params`' criteria loop for one criterion:
the rendered parameters and the warnings printed for it.  A criterion of
kind `outcome` attaches `learning_outcome_id` (plus mastery/scoring
fields, and `points` only when no ratings are listed) when its code
resolves to a non-falsy id; otherwise it is left as the plain local
rendering with one warning. -/
def buildCritParams (om : List (String × Nat)) (idx : Nat)
    (crit : CriterionSpec) : CritParams × List String :=
  let cid :=
    match crit.id with
    | some s => if s = "" then "crit_" ++ toString idx else s
    | none => "crit_" ++ toString idx
  let kind := crit.kind.getD "local"
  let ratings := crit.ratings
  let base : CritParams :=
    { description := crit.description.getD ""
      long_description := crit.long_description.getD ""
      criterion_use_range := false
      ratings :=
        if ratings.isEmpty then none
        else some (ratings.map fun r =>
          { description := r.description.getD "",
            points := r.points.getD 0 })
      learning_outcome_id := none
      mastery_points := none
      use_for_scoring := none
      points := none }
  if kind = "outcome" then
    match crit.outcome_code with
    | none =>
        (base, ["[rubrics:warn] outcome criterion " ++ cid ++
          " missing outcome_code; treating as local"])
    | some code =>
        if code = "" then
          (base, ["[rubrics:warn] outcome criterion " ++ cid ++
            " missing outcome_code; treating as local"])
        else
          match lookupOutcome om code with
          | none =>
              (base, ["[rubrics:warn] outcome_code " ++ code ++
                " not found in outcome_map; treating " ++ cid ++ " as local"])
          | some oid =>
              if oid = 0 then
                (base, ["[rubrics:warn] outcome_code " ++ code ++
                  " not found in outcome_map; treating " ++ cid ++
                  " as local"])
              else
                ({ base with
                    learning_outcome_id := some oid
                    mastery_points := some crit.mastery_points
                    use_for_scoring := some (crit.use_for_scoring.getD true)
                    points :=
                      if crit.points.isSome && ratings.isEmpty then crit.points
                      else none },
                 [])
  else (base, [])

/-- The criteria loop of `build_rubric_params`: keys are `str(idx)` with
`idx` starting at 1; warnings accumulate in order. -/
def buildCriteriaParams (om : List (String × Nat)) (idx : Nat) :
    List CriterionSpec → List (String × CritParams) × List String
  | [] => ([], [])
  | c :: cs =>
      match buildCritParams om idx c with
      | (p, w) =>
        match buildCriteriaParams om (idx + 1) cs with
        | (ps, ws) => ((toString idx, p) :: ps, w ++ ws)

/-- The parameters `build_rubric_params` returns (the nested
`rubric.criteria` hash is carried flattened). -/
structure RubricParams where
  title : String
  free_form_criterion_comments : Bool
  criteria : List (String × CritParams)
deriving DecidableEq

/-- `build_rubric_params` from `shared/scripts/sync_rubrics.py`,
returning the create-rubric parameters and all warnings printed while
building them. -/
def build_rubric_params (rubric_spec : RubricSpec)
    (outcome_map : List (String × Nat)) : RubricParams × List String :=
  let title := rubric_spec.title.getD "Untitled Rubric"
  let free_form_comments := rubric_spec.free_form_comments
  match buildCriteriaParams outcome_map 1 rubric_spec.criteria with
  | (cs, ws) =>
    ({ title := title, free_form_criterion_comments := free_form_comments,
       criteria := cs }, ws)

end RubricsShared

namespace RubricsCsv

/-- One CSV cell: either text or a numeric point value. -/
inductive Cell
  | s (v : String)
  | q (v : ℚ)
deriving DecidableEq

/-- The fixed header row of `build_rubric_csv`. -/
def csvHeader : List Cell :=
  [.s "Criterion", .s "Description", .s "Points",
   .s "Rating 1", .s "Points 1", .s "Rating 2", .s "Points 2",
   .s "Rating 3", .s "Points 3", .s "Rating 4", .s "Points 4"]

/-- `float(r.get("points", 0))` for one rating. -/
def ratingPointsOrZero (r : RatingSpec) : ℚ := r.points.getD 0

/-- `max(float(r.get("points", 0)) for r in ratings)` over a non-empty
ratings list (0 for the empty list, where the source never calls it). -/
def maxRatingPoints : List RatingSpec → ℚ
  | [] => 0
  | r :: rs =>
      rs.foldl (fun m x => max m (ratingPointsOrZero x)) (ratingPointsOrZero r)

/-- Criterion-level points of `build_rubric_csv`: the explicit `points`
when the key is present, else the maximum rating points, else 0. -/
def critPoints (crit : CriterionSpec) : ℚ :=
  match crit.points with
  | some p => p
  | none =>
      if crit.ratings.isEmpty then 0 else maxRatingPoints crit.ratings

/-- The two cells a rating contributes to its row. -/
def ratingCells (r : RatingSpec) : List Cell :=
  [.s (r.description.getD ""), .q (ratingPointsOrZero r)]

/-- One data row of `build_rubric_csv`: criterion text, description,
points, then the first four ratings and empty-string padding for the
remaining rating slots. -/
def rubricCsvRow (crit : CriterionSpec) : List Cell :=
  [Cell.s (crit.description.getD ""),
   Cell.s (crit.long_description.getD ""),
   Cell.q (critPoints crit)]
  ++ (crit.ratings.take 4).flatMap ratingCells
  ++ List.replicate (2 * (4 - min crit.ratings.length 4)) (Cell.s "")

/-- `build_rubric_csv` from `zaphod/scripts/sync_rubrics.py`: the header
row followed by one row per criterion.  The `outcome_map` argument is
accepted and ignored, exactly as in the source (outcome alignment is not
wired into the CSV). -/
def build_rubric_csv (rubric_spec : RubricSpec)
    (outcome_map : List (String × Nat)) : List (List Cell) :=
  csvHeader :: rubric_spec.criteria.map rubricCsvRow

/-- Modelled from the spec (and the claim): rendering of `n` rating
slots takes ratings while they last and pads the remaining slots with
two empty cells each.  Slots beyond `n` do not exist, so ratings beyond
the `n`-th are omitted. -/
def specRatingSlots : List RatingSpec → Nat → List Cell
  | _, 0 => []
  | [], n + 1 => Cell.s "" :: Cell.s "" :: specRatingSlots [] n
  | r :: rs, n + 1 =>
      Cell.s (r.description.getD "") :: Cell.q (ratingPointsOrZero r) ::
        specRatingSlots rs n

/-- One polled response of the rubric upload job, as
`poll_rubric_upload_status` consumes it: HTTP status, the job state
(`workflow_state`/`status` of the body), the rubric id the body carries,
and the wall-clock seconds elapsed since the poll loop started when this
response is examined. -/
structure PollStep where
  status : Nat
  state : Option String
  rubric_id : Option Nat
  elapsed : ℚ
deriving DecidableEq

/-- The job states the loop accepts as successful completion. -/
def successStates : List String :=
  ["imported", "completed", "complete", "succeeded"]

/-- The job states the loop treats as explicit failure. -/
def failureStates : List String :=
  ["failed", "failed_with_messages", "error"]

/-- Result of the polling loop over a finite trace of responses. -/
inductive PollOutcome
  | ok (rubricId : Option Nat)
  | err (e : PyError)
  | pending
deriving DecidableEq

/-- `poll_rubric_upload_status` from `zaphod/scripts/sync_rubrics.py`
over a trace of responses: a non-200 response or a failure state raises
`RuntimeError`; a success state returns; otherwise, once the elapsed
time exceeds the timeout, `TimeoutError` is raised; else the loop sleeps
the fixed `poll_interval` and polls again.  `pending` marks a trace that
ends while the loop would still be polling. -/
def poll_rubric_upload_status (timeout : ℚ) : List PollStep → PollOutcome
  | [] => .pending
  | step :: rest =>
      if step.status ≠ 200 then
        .err (.runtimeError ("Rubric upload status error " ++
          toString step.status))
      else
        let st := step.state.getD ""
        if successStates.contains st then .ok step.rubric_id
        else if failureStates.contains st then
          .err (.runtimeError ("Rubric upload failed with state " ++ st))
        else if step.elapsed > timeout then
          .err (.timeoutError "Timed out waiting for rubric upload to complete")
        else poll_rubric_upload_status timeout rest

/-- A polled response that keeps the loop going: HTTP 200, a state that
is neither success nor failure, within the timeout. -/
def nonTerminalWithin (timeout : ℚ) (s : PollStep) : Bool :=
  s.status == 200 &&
    !(successStates.contains (s.state.getD "")) &&
    !(failureStates.contains (s.state.getD "")) &&
    decide (s.elapsed ≤ timeout)

/-- The `try`/`except Exception` around the upload flow in
`process_assignment_folder` of the async script: an error that is an
`Exception` is logged and the folder completes (unsuccessfully); any
other error propagates. -/
def handleFolderErrors (r : Except PyError Unit) : Except PyError Bool :=
  match r with
  | .ok _ => .ok true
  | .error e => if e.isException then .ok false else .error e

/-- The async script's folder loop over the per-folder flow results:
processing continues after caught errors, stops at an uncaught one. -/
def runAsyncFolders : List (Except PyError Unit) → List Bool × Option PyError
  | [] => ([], none)
  | r :: rs =>
      match handleFolderErrors r with
      | .ok b =>
          match runAsyncFolders rs with
          | (bs, e) => (b :: bs, e)
      | .error e => ([], some e)

end RubricsCsv

/-! Concrete example data used by the witness and counterexample
theorems below. -/

/-- A rubric spec with no `title` key: the first malformed-spec case of
`build_rubric_payload`. -/
def exBadSpec : RubricSpec :=
  { title := none, free_form_criterion_comments := false,
    free_form_comments := false, association := none, criteria := [] }

/-- A well-formed one-criterion rubric spec. -/
def exGoodSpec : RubricSpec :=
  { title := some "R", free_form_criterion_comments := false,
    free_form_comments := false, association := none,
    criteria :=
      [{ id := none, kind := none, description := some "d",
         long_description := none, points := some 5, use_range := false,
         ratings := [{ description := some "good", long_description := none,
                       points := some 3 }],
         outcome_code := none, mastery_points := none,
         use_for_scoring := none }] }

/-- An assignment folder whose rubric file parsed to the given spec and
whose other steps all succeed. -/
def exFolder (s : RubricSpec) : RubricsInline.Folder :=
  { hasRubricFile := true,
    meta := .ok { type := some "Assignment", name := some "HW" },
    specLoad := .ok s, createResult := .ok (some 7) }

/-- A course holding the one assignment the example folders target. -/
def exCourse : List RubricsInline.Assignment := [{ id := 42, name := "HW" }]

/-- A criterion of kind `outcome` with explicit points and no ratings,
whose code `WRIT-1` may or may not be in the outcome mapping. -/
def exOutcomeCrit : CriterionSpec :=
  { id := some "thesis", kind := some "outcome", description := some "Thesis",
    long_description := none, points := some 4, use_range := false,
    ratings := [], outcome_code := some "WRIT-1", mastery_points := none,
    use_for_scoring := none }

/-- A criterion declaring `points: 10` while its single rating carries 7
points (the spec's points-authority example). -/
def exPointsCrit : CriterionSpec :=
  { id := none, kind := none, description := some "Quality",
    long_description := none, points := some 10, use_range := false,
    ratings := [{ description := some "Full", long_description := none,
                  points := some 7 }],
    outcome_code := none, mastery_points := none, use_for_scoring := none }

/-- The payload entries `criterionEntries 0 exPointsCrit` produces. -/
def exPointsPayload : List (String × RubricsInline.Value) :=
  [("rubric[criteria][0][description]", .s "Quality"),
   ("rubric[criteria][0][long_description]", .s ""),
   ("rubric[criteria][0][points]", .q 10),
   ("rubric[criteria][0][criterion_use_range]", .s "0"),
   ("rubric[criteria][0][ratings][0][description]", .s "Full"),
   ("rubric[criteria][0][ratings][0][long_description]", .s ""),
   ("rubric[criteria][0][ratings][0][points]", .q 7)]

/-! Helper lemmas. -/

theorem mem_insertSorted (a x : String) (l : List String) :
    a ∈ insertSorted x l ↔ a = x ∨ a ∈ l := by
  induction l with
  | nil => simp [insertSorted]
  | cons y ys ih =>
      simp only [insertSorted]
      by_cases h : strLe x y
      · simp [h]
      · simp only [h]
        simp [ih]
        tauto

theorem mem_sortNames (a : String) (l : List String) :
    a ∈ sortNames l ↔ a ∈ l := by
  induction l with
  | nil => simp [sortNames]
  | cons y ys ih =>
      simp only [sortNames, List.foldr] at *
      rw [mem_insertSorted]
      simp [ih]

theorem contains_iff_mem (l : List String) (x : String) :
    l.contains x = true ↔ x ∈ l :=
  List.elem_iff

namespace Prune

theorem mem_setDiff (x : String) (a b : List String) :
    x ∈ setDiff a b ↔ x ∈ a ∧ x ∉ b := by
  simp [setDiff, List.mem_filter]

theorem mem_extraPagesOf (t : String) (localPages : List String)
    (pages : List CanvasPage) :
    t ∈ extraPagesOf localPages pages ↔
      t ∈ pages.map CanvasPage.title ∧ t ∉ localPages := by
  simp [extraPagesOf, mem_setDiff, canvasPageNames, List.mem_dedup]

theorem mem_extraAssignmentsOf (n : String) (localAssignments : List String)
    (assigns : List CanvasAssignment) :
    n ∈ extraAssignmentsOf localAssignments assigns ↔
      n ∈ assigns.map CanvasAssignment.name ∧ n ∉ localAssignments := by
  simp [extraAssignmentsOf, mem_setDiff, canvasAssignmentNames, List.mem_dedup]

theorem delete_extra_pages_no_deletes_dry (pages : List CanvasPage)
    (extra : List String) :
    (delete_extra_pages pages extra false).filter isDeleteEvent = [] := by
  unfold delete_extra_pages
  by_cases h : extra.isEmpty
  · simp [h, isDeleteEvent]
  · simp only [h, Bool.false_eq_true, if_false]
    simp [List.filter_append, List.filter_map, isDeleteEvent,
      List.filter_eq_nil_iff]

theorem delete_extra_assignments_no_deletes_dry
    (assigns : List CanvasAssignment) (extra : List String) :
    (delete_extra_assignments assigns extra false).filter isDeleteEvent
      = [] := by
  unfold delete_extra_assignments
  by_cases h : extra.isEmpty
  · simp [h, isDeleteEvent]
  · simp only [h, Bool.false_eq_true, if_false]
    simp [List.filter_append, List.filter_map, isDeleteEvent,
      List.filter_eq_nil_iff]

theorem reported_of_mem_extra_pages (pages : List CanvasPage)
    (extra : List String) (apply : Bool) (t : String) (ht : t ∈ extra) :
    PruneEvent.extraPageReported t ∈ delete_extra_pages pages extra apply := by
  unfold delete_extra_pages
  have hne : extra.isEmpty = false := by
    cases extra with
    | nil => cases ht
    | cons a l => rfl
  simp only [hne, Bool.false_eq_true, if_false]
  by_cases ha : apply <;>
    simp [ha, List.mem_append, List.mem_map, mem_sortNames] <;>
    exact ht

theorem reported_of_mem_extra_assignments (assigns : List CanvasAssignment)
    (extra : List String) (apply : Bool) (n : String) (hn : n ∈ extra) :
    PruneEvent.extraAssignmentReported n ∈
      delete_extra_assignments assigns extra apply := by
  unfold delete_extra_assignments
  have hne : extra.isEmpty = false := by
    cases extra with
    | nil => cases hn
    | cons a l => rfl
  simp only [hne, Bool.false_eq_true, if_false]
  by_cases ha : apply <;>
    simp [ha, List.mem_append, List.mem_map, mem_sortNames] <;>
    exact hn

end Prune

/-- C1. Dry-run safety: without the apply flag, `delete_extra_pages` and
`delete_extra_assignments` report every extra object's name and issue
zero delete calls. -/
theorem prune_dry_run_reports_and_deletes_nothing
    (pages : List Prune.CanvasPage) (assigns : List Prune.CanvasAssignment)
    (extraP extraA : List String) :
    ((Prune.delete_extra_pages pages extraP false).filter
        Prune.isDeleteEvent = [] ∧
     (Prune.delete_extra_assignments assigns extraA false).filter
        Prune.isDeleteEvent = []) ∧
    (∀ t ∈ extraP, Prune.PruneEvent.extraPageReported t ∈
        Prune.delete_extra_pages pages extraP false) ∧
    (∀ n ∈ extraA, Prune.PruneEvent.extraAssignmentReported n ∈
        Prune.delete_extra_assignments assigns extraA false) := by
  refine ⟨⟨Prune.delete_extra_pages_no_deletes_dry pages extraP,
           Prune.delete_extra_assignments_no_deletes_dry assigns extraA⟩,
         ?_, ?_⟩
  · intro t ht
    exact Prune.reported_of_mem_extra_pages pages extraP false t ht
  · intro n hn
    exact Prune.reported_of_mem_extra_assignments assigns extraA false n hn

/-- C1 witness: the dry-run theorem applied to a concrete course with
one extra page and one extra assignment. -/
theorem prune_dry_run_witness :
    ((Prune.delete_extra_pages [⟨"Old Page"⟩] ["Old Page"] false).filter
        Prune.isDeleteEvent = [] ∧
     (Prune.delete_extra_assignments [⟨"Old HW"⟩] ["Old HW"] false).filter
        Prune.isDeleteEvent = []) ∧
    Prune.PruneEvent.extraPageReported "Old Page" ∈
      Prune.delete_extra_pages [⟨"Old Page"⟩] ["Old Page"] false ∧
    Prune.PruneEvent.extraAssignmentReported "Old HW" ∈
      Prune.delete_extra_assignments [⟨"Old HW"⟩] ["Old HW"] false := by
  have h := prune_dry_run_reports_and_deletes_nothing
    [⟨"Old Page"⟩] [⟨"Old HW"⟩] ["Old Page"] ["Old HW"]
  exact ⟨h.1, h.2.1 "Old Page" (by decide), h.2.2 "Old HW" (by decide)⟩

namespace Prune

theorem delete_extra_pages_no_assignment_events (pages : List CanvasPage)
    (extra : List String) (apply : Bool) (e : PruneEvent)
    (he : e ∈ delete_extra_pages pages extra apply) :
    isAssignmentDelete e = false ∧ assignmentEventName e = none ∧
      e ≠ .assignmentsNotDeletedNote := by
  unfold delete_extra_pages at he
  by_cases h : extra.isEmpty
  · simp [h] at he
    subst he
    exact ⟨rfl, rfl, by decide⟩
  · simp only [h, Bool.false_eq_true, if_false] at he
    by_cases ha : apply <;>
      simp [ha, List.mem_append, List.mem_map] at he <;>
      rcases he with ⟨x, _, hx⟩ | h2
    · subst hx; exact ⟨rfl, rfl, by simp⟩
    · rcases h2 with ⟨p, _, hp⟩
      subst hp; exact ⟨rfl, rfl, by simp⟩
    · subst hx; exact ⟨rfl, rfl, by simp⟩
    · subst h2; exact ⟨rfl, rfl, by decide⟩

theorem delete_extra_assignments_page_name_none
    (assigns : List CanvasAssignment) (extra : List String) (apply : Bool)
    (e : PruneEvent) (he : e ∈ delete_extra_assignments assigns extra apply) :
    pageEventName e = none ∧ e ≠ .assignmentsNotDeletedNote := by
  unfold delete_extra_assignments at he
  by_cases h : extra.isEmpty
  · simp [h] at he
    subst he
    exact ⟨rfl, by decide⟩
  · simp only [h, Bool.false_eq_true, if_false] at he
    by_cases ha : apply <;>
      simp [ha, List.mem_append, List.mem_map] at he <;>
      rcases he with ⟨x, _, hx⟩ | h2
    · subst hx; exact ⟨rfl, by simp⟩
    · rcases h2 with ⟨a, _, hp⟩
      subst hp; exact ⟨rfl, by simp⟩
    · subst hx; exact ⟨rfl, by simp⟩
    · subst h2; exact ⟨rfl, by decide⟩

theorem delete_extra_pages_page_names (pages : List CanvasPage)
    (extra : List String) (apply : Bool) (e : PruneEvent) (t : String)
    (he : e ∈ delete_extra_pages pages extra apply)
    (hn : pageEventName e = some t) :
    t ∈ extra ∨ t ∈ pages.map CanvasPage.title := by
  unfold delete_extra_pages at he
  by_cases h : extra.isEmpty
  · simp [h] at he
    subst he
    simp [pageEventName] at hn
  · simp only [h, Bool.false_eq_true, if_false] at he
    by_cases ha : apply <;>
      simp [ha, List.mem_append, List.mem_map] at he <;>
      rcases he with ⟨x, hx1, hx2⟩ | h2
    · subst hx2
      simp [pageEventName] at hn
      subst hn
      exact Or.inl ((mem_sortNames _ _).1 hx1)
    · rcases h2 with ⟨p, hp1, hp2⟩
      subst hp2
      simp [pageEventName] at hn
      subst hn
      exact Or.inr (List.mem_map.2 ⟨p, hp1.1, rfl⟩)
    · subst hx2
      simp [pageEventName] at hn
      subst hn
      exact Or.inl ((mem_sortNames _ _).1 hx1)
    · subst h2
      simp [pageEventName] at hn

theorem delete_extra_assignments_names (assigns : List CanvasAssignment)
    (extra : List String) (apply : Bool) (e : PruneEvent) (t : String)
    (he : e ∈ delete_extra_assignments assigns extra apply)
    (hn : assignmentEventName e = some t) :
    t ∈ extra ∨ t ∈ assigns.map CanvasAssignment.name := by
  unfold delete_extra_assignments at he
  by_cases h : extra.isEmpty
  · simp [h] at he
    subst he
    simp [assignmentEventName] at hn
  · simp only [h, Bool.false_eq_true, if_false] at he
    by_cases ha : apply <;>
      simp [ha, List.mem_append, List.mem_map] at he <;>
      rcases he with ⟨x, hx1, hx2⟩ | h2
    · subst hx2
      simp [assignmentEventName] at hn
      subst hn
      exact Or.inl ((mem_sortNames _ _).1 hx1)
    · rcases h2 with ⟨a, ha1, ha2⟩
      subst ha2
      simp [assignmentEventName] at hn
      subst hn
      exact Or.inr (List.mem_map.2 ⟨a, ha1.1, rfl⟩)
    · subst hx2
      simp [assignmentEventName] at hn
      subst hn
      exact Or.inl ((mem_sortNames _ _).1 hx1)
    · subst h2
      simp [assignmentEventName] at hn

theorem delete_attempt_of_extra_page (pages : List CanvasPage)
    (extra : List String) (t : String) (ht : t ∈ extra)
    (hp : t ∈ pages.map CanvasPage.title) :
    PruneEvent.pageDeleteAttempt t ∈ delete_extra_pages pages extra true := by
  unfold delete_extra_pages
  have hne : extra.isEmpty = false := by
    cases extra with
    | nil => cases ht
    | cons a l => rfl
  simp only [hne, Bool.false_eq_true, if_false, Bool.not_true]
  rcases List.mem_map.1 hp with ⟨p, hp1, hp2⟩
  refine List.mem_append.2 (Or.inr (List.mem_map.2 ⟨p, ?_, by rw [hp2]⟩))
  exact List.mem_filter.2 ⟨hp1, (contains_iff_mem extra p.title).2 (hp2 ▸ ht)⟩

end Prune

/-- C4. Scoped pruning: with apply set and assignment pruning unset, the
run issues no assignment delete, attempts deletion of every extra page,
and mentions assignment extras only through the remaining-assignments
note, which appears exactly when such extras exist. -/
theorem prune_apply_scopes_to_pages (localP localA : List String)
    (pages : List Prune.CanvasPage) (assigns : List Prune.CanvasAssignment) :
    ((Prune.pruneMain localP localA pages assigns true false).filter
        Prune.isAssignmentDelete = []) ∧
    (∀ t ∈ Prune.extraPagesOf localP pages,
      Prune.PruneEvent.pageDeleteAttempt t ∈
        Prune.pruneMain localP localA pages assigns true false) ∧
    (Prune.PruneEvent.assignmentsNotDeletedNote ∈
        Prune.pruneMain localP localA pages assigns true false ↔
      Prune.extraAssignmentsOf localA assigns ≠ []) := by
  unfold Prune.pruneMain
  simp only [if_false, Bool.false_eq_true]
  refine ⟨?_, ?_, ?_⟩
  · rw [List.filter_append]
    have h1 : (Prune.delete_extra_pages pages
        (Prune.extraPagesOf localP pages) true).filter
        Prune.isAssignmentDelete = [] := by
      rw [List.filter_eq_nil_iff]
      intro e he
      simp [(Prune.delete_extra_pages_no_assignment_events pages _ true e
        he).1]
    rw [h1]
    by_cases h : (Prune.extraAssignmentsOf localA assigns).isEmpty <;>
      simp [h, Prune.isAssignmentDelete]
  · intro t ht
    refine List.mem_append.2 (Or.inl ?_)
    exact Prune.delete_attempt_of_extra_page pages _ t ht
      ((Prune.mem_extraPagesOf t localP pages).1 ht).1
  · constructor
    · intro hmem
      rcases List.mem_append.1 hmem with h1 | h2
      · exact absurd rfl
          (Prune.delete_extra_pages_no_assignment_events pages _ true _
            h1).2.2
      · by_cases h : (Prune.extraAssignmentsOf localA assigns).isEmpty
        · simp [h] at h2
        · intro hl
          rw [hl] at h
          exact h rfl
    · intro hne
      have h : (Prune.extraAssignmentsOf localA assigns).isEmpty = false := by
        cases hl : Prune.extraAssignmentsOf localA assigns with
        | nil => exact absurd hl hne
        | cons a l => rfl
      simp [h]

/-- C4 witness: the scoped-pruning theorem applied to a concrete course
with one extra page and one extra assignment. -/
theorem prune_apply_scopes_witness :
    ((Prune.pruneMain ["Keep"] [] [⟨"Keep"⟩, ⟨"Stale"⟩] [⟨"Old HW"⟩]
        true false).filter Prune.isAssignmentDelete = []) ∧
    Prune.PruneEvent.pageDeleteAttempt "Stale" ∈
      Prune.pruneMain ["Keep"] [] [⟨"Keep"⟩, ⟨"Stale"⟩] [⟨"Old HW"⟩]
        true false ∧
    Prune.PruneEvent.assignmentsNotDeletedNote ∈
      Prune.pruneMain ["Keep"] [] [⟨"Keep"⟩, ⟨"Stale"⟩] [⟨"Old HW"⟩]
        true false := by
  have h := prune_apply_scopes_to_pages ["Keep"] []
    [⟨"Keep"⟩, ⟨"Stale"⟩] [⟨"Old HW"⟩]
  exact ⟨h.1, h.2.1 "Stale" (by decide), h.2.2.2 (by decide)⟩

/-- C7 counterexample: a run whose only local page `Week 1` is absent
remotely.  The claim says such missing names are reported as a warning;
the full event list of the run is `[noExtraPages]`, so no event mentions
`Week 1` at all. -/
theorem prune_missing_never_reported_cex :
    "Week 1" ∈ Prune.specMissingPages ["Week 1"] [] ∧
    Prune.pruneMain ["Week 1"] [] [] [] false false =
      [Prune.PruneEvent.noExtraPages] ∧
    (Prune.pruneMain ["Week 1"] [] [] [] false false).filter
      (fun e => Prune.pageEventName e == some "Week 1") = [] ∧
    (Prune.pruneMain ["Week 1"] [] [] [] false false).filter
      (fun e => Prune.assignmentEventName e == some "Week 1") = [] := by
  decide

/-- C7 (amended). Reconciliation computes `extra` as the exact
case-sensitive set difference remote − local per kind, and names
declared locally but absent remotely are never computed or mentioned by
any event of the run. -/
theorem prune_extra_exact_diff_missing_unreported
    (localP localA : List String) (pages : List Prune.CanvasPage)
    (assigns : List Prune.CanvasAssignment) (apply inc : Bool) :
    (∀ t, t ∈ Prune.extraPagesOf localP pages ↔
        t ∈ pages.map Prune.CanvasPage.title ∧ t ∉ localP) ∧
    (∀ n, n ∈ Prune.extraAssignmentsOf localA assigns ↔
        n ∈ assigns.map Prune.CanvasAssignment.name ∧ n ∉ localA) ∧
    (∀ t, t ∈ localP → t ∉ pages.map Prune.CanvasPage.title →
      ∀ e ∈ Prune.pruneMain localP localA pages assigns apply inc,
        Prune.pageEventName e ≠ some t) ∧
    (∀ n, n ∈ localA → n ∉ assigns.map Prune.CanvasAssignment.name →
      ∀ e ∈ Prune.pruneMain localP localA pages assigns apply inc,
        Prune.assignmentEventName e ≠ some n) := by
  refine ⟨fun t => Prune.mem_extraPagesOf t localP pages,
          fun n => Prune.mem_extraAssignmentsOf n localA assigns, ?_, ?_⟩
  · intro t htl htr e he hname
    rcases List.mem_append.1 he with h1 | h2
    · rcases Prune.delete_extra_pages_page_names pages _ apply e t h1 hname
        with hx | hx
      · exact htr ((Prune.mem_extraPagesOf t localP pages).1 hx).1
      · exact htr hx
    · by_cases hinc : inc
      · simp only [hinc, if_true] at h2
        rw [(Prune.delete_extra_assignments_page_name_none assigns _ apply e
          h2).1] at hname
        cases hname
      · simp only [hinc, Bool.false_eq_true, if_false] at h2
        by_cases hia : (Prune.extraAssignmentsOf localA assigns).isEmpty <;>
          simp [hia] at h2
        subst h2
        cases hname
  · intro n hnl hnr e he hname
    rcases List.mem_append.1 he with h1 | h2
    · rw [(Prune.delete_extra_pages_no_assignment_events pages _ apply e
        h1).2.1] at hname
      cases hname
    · by_cases hinc : inc
      · simp only [hinc, if_true] at h2
        rcases Prune.delete_extra_assignments_names assigns _ apply e n h2
          hname with hx | hx
        · exact hnr
            ((Prune.mem_extraAssignmentsOf n localA assigns).1 hx).1
        · exact hnr hx
      · simp only [hinc, Bool.false_eq_true, if_false] at h2
        by_cases hia : (Prune.extraAssignmentsOf localA assigns).isEmpty <;>
          simp [hia] at h2
        subst h2
        cases hname

/-- C7 witness: the amended reconciliation theorem applied to a concrete
state with one extra remote page, one matched page, and one local-only
name. -/
theorem prune_extra_exact_diff_witness :
    ("Stale" ∈ Prune.extraPagesOf ["Keep", "Gone"] [⟨"Keep"⟩, ⟨"Stale"⟩] ∧
     "Keep" ∉ Prune.extraPagesOf ["Keep", "Gone"] [⟨"Keep"⟩, ⟨"Stale"⟩]) ∧
    (Prune.pruneMain ["Keep", "Gone"] [] [⟨"Keep"⟩, ⟨"Stale"⟩] []
        true true).filter
      (fun e => Prune.pageEventName e == some "Gone") = [] := by
  have h := prune_extra_exact_diff_missing_unreported ["Keep", "Gone"] []
    [⟨"Keep"⟩, ⟨"Stale"⟩] [] true true
  refine ⟨⟨(h.1 "Stale").2 (by decide), ?_⟩, ?_⟩
  · intro hc
    exact absurd ((h.1 "Keep").1 hc).2 (by decide)
  · rw [List.filter_eq_nil_iff]
    intro e he
    simp only [beq_iff_eq]
    exact h.2.2.1 "Gone" (by decide) (by decide) e he

namespace SyncModules

theorem find?_name_cons_pos (x : CModule) (xs : List CModule) (n : String)
    (h : (x.name == n) = true) :
    (x :: xs).find? (fun y => y.name == n) = some x := by
  simp [List.find?_cons, h]

theorem find?_name_cons_neg (x : CModule) (xs : List CModule) (n : String)
    (h : (x.name == n) = false) :
    (x :: xs).find? (fun y => y.name == n) =
      xs.find? (fun y => y.name == n) := by
  simp [List.find?_cons, h]

theorem module_has_item_append (m : CModule) (item : MItem) (ty : String)
    (pu : Option String) (ci : Option Nat) (eu : Option String)
    (h : module_has_item m ty pu ci eu = true) :
    module_has_item { m with items := m.items ++ [item] } ty pu ci eu
      = true := by
  unfold module_has_item at h ⊢
  show (m.items ++ [item]).any _ = true
  rw [List.any_append, h]
  rfl

theorem module_has_item_eq_any (m : CModule) (ty : String)
    (pu : Option String) (ci : Option Nat) (eu : Option String) :
    module_has_item m ty pu ci eu =
      m.items.any (fun it => itemMatchesQuery it ty pu ci eu) := rfl

theorem module_has_item_of_matching_mem (m : CModule) (ty : String)
    (pu : Option String) (ci : Option Nat) (eu : Option String)
    (item : MItem) (hmatch : itemMatchesQuery item ty pu ci eu = true)
    (hmem : item ∈ m.items) :
    module_has_item m ty pu ci eu = true := by
  rw [module_has_item_eq_any, List.any_eq_true]
  exact ⟨item, hmem, hmatch⟩

theorem find?_addItemFirst (n n' : String) (item : MItem) :
    ∀ (ms : List CModule) (m : CModule),
      ms.find? (fun x => x.name == n') = some m →
      (addItemFirst n item ms).find? (fun x => x.name == n') = some m ∨
      (addItemFirst n item ms).find? (fun x => x.name == n') =
        some { m with items := m.items ++ [item] } := by
  intro ms
  induction ms with
  | nil => intro m h; cases h
  | cons x xs ih =>
      intro m h
      cases hx : x.name == n with
      | true =>
          simp only [addItemFirst, hx, if_true]
          cases hx' : x.name == n' with
          | true =>
              rw [find?_name_cons_pos x xs n' hx'] at h
              have hxm : x = m := by injection h
              subst hxm
              right
              exact find?_name_cons_pos _ xs n' hx'
          | false =>
              rw [find?_name_cons_neg x xs n' hx'] at h
              left
              rw [find?_name_cons_neg { x with items := x.items ++ [item] }
                xs n' hx']
              exact h
      | false =>
          simp only [addItemFirst, hx, Bool.false_eq_true, if_false]
          cases hx' : x.name == n' with
          | true =>
              rw [find?_name_cons_pos x xs n' hx'] at h
              have hxm : x = m := by injection h
              subst hxm
              left
              exact find?_name_cons_pos x _ n' hx'
          | false =>
              rw [find?_name_cons_neg x xs n' hx'] at h
              rcases ih m h with h1 | h1
              · left
                rw [find?_name_cons_neg x _ n' hx']
                exact h1
              · right
                rw [find?_name_cons_neg x _ n' hx']
                exact h1

theorem find?_addItemFirst_found (n : String) (item : MItem) :
    ∀ (ms : List CModule) (m : CModule),
      ms.find? (fun x => x.name == n) = some m →
      (addItemFirst n item ms).find? (fun x => x.name == n) =
        some { m with items := m.items ++ [item] } := by
  intro ms
  induction ms with
  | nil => intro m h; cases h
  | cons x xs ih =>
      intro m h
      cases hx : x.name == n with
      | true =>
          rw [find?_name_cons_pos x xs n hx] at h
          have hxm : x = m := by injection h
          subst hxm
          simp only [addItemFirst, hx, if_true]
          exact find?_name_cons_pos _ xs n hx
      | false =>
          rw [find?_name_cons_neg x xs n hx] at h
          simp only [addItemFirst, hx, Bool.false_eq_true, if_false]
          rw [find?_name_cons_neg x _ n hx]
          exact ih m h

theorem addItemFirst_not_found (n : String) (item : MItem) :
    ∀ ms : List CModule,
      ms.find? (fun x => x.name == n) = none →
      addItemFirst n item (ms ++ [⟨n, []⟩]) = ms ++ [⟨n, [item]⟩] := by
  intro ms
  induction ms with
  | nil =>
      intro _
      simp [addItemFirst]
  | cons x xs ih =>
      intro h
      rw [List.find?_eq_none] at h
      have hx : ¬ (x.name == n) = true := h x (by simp)
      simp only [List.cons_append, addItemFirst, hx, Bool.false_eq_true,
        if_false, List.cons.injEq, true_and]
      apply ih
      rw [List.find?_eq_none]
      intro y hy
      exact h y (by simp [hy])

theorem syncItemModule_state (st : CourseState) (ty : String)
    (pu : Option String) (ci : Option Nat) (eu : Option String)
    (item : MItem) (n : String) :
    (syncItemModule st ty pu ci eu item n).2.pages = st.pages ∧
    (syncItemModule st ty pu ci eu item n).2.assignments = st.assignments ∧
    (syncItemModule st ty pu ci eu item n).2.files = st.files := by
  unfold syncItemModule ensure_module
  cases h : st.modules.find? (fun m => m.name == n) <;>
    simp only [] <;>
    split <;>
    exact ⟨rfl, rfl, rfl⟩

theorem hasItem_establish (st : CourseState) (ty : String)
    (pu : Option String) (ci : Option Nat) (eu : Option String)
    (item : MItem) (n : String)
    (hmatch : itemMatchesQuery item ty pu ci eu = true) :
    hasItem (syncItemModule st ty pu ci eu item n).2 n ty pu ci eu = true := by
  unfold syncItemModule ensure_module
  cases h : st.modules.find? (fun m => m.name == n) with
  | some m =>
      simp only []
      by_cases hh : module_has_item m ty pu ci eu
      · simp only [hh, if_true]
        simp [hasItem, h, hh]
      · simp only [hh, Bool.false_eq_true, if_false]
        unfold hasItem addItem
        rw [find?_addItemFirst_found n _ st.modules m h]
        exact module_has_item_of_matching_mem _ ty pu ci eu item hmatch
          (by simp)
  | none =>
      simp only []
      have hempty : module_has_item ⟨n, []⟩ ty pu ci eu = false := by
        simp [module_has_item]
      simp only [hempty, Bool.false_eq_true, if_false]
      unfold hasItem addItem
      simp only []
      rw [addItemFirst_not_found n _ st.modules h]
      rw [List.find?_append, h, Option.none_or]
      rw [find?_name_cons_pos _ _ _ (by simp)]
      exact module_has_item_of_matching_mem _ ty pu ci eu item hmatch
        (by simp)

theorem hasItem_preserve (st : CourseState) (ty : String)
    (pu : Option String) (ci : Option Nat) (eu : Option String)
    (item : MItem) (n n' ty' : String) (pu' : Option String)
    (ci' : Option Nat) (eu' : Option String)
    (h : hasItem st n' ty' pu' ci' eu' = true) :
    hasItem (syncItemModule st ty pu ci eu item n).2 n' ty' pu' ci' eu'
      = true := by
  unfold hasItem at h
  cases hf : st.modules.find? (fun m => m.name == n') with
  | none => rw [hf] at h; cases h
  | some m' =>
      rw [hf] at h
      have h' : module_has_item m' ty' pu' ci' eu' = true := h
      unfold syncItemModule ensure_module
      cases hn : st.modules.find? (fun m => m.name == n) with
      | some m =>
          simp only []
          by_cases hh : module_has_item m ty pu ci eu
          · simp only [hh, if_true]
            simp [hasItem, hf, h']
          · simp only [hh, Bool.false_eq_true, if_false]
            unfold hasItem addItem
            simp only []
            rcases find?_addItemFirst n n' item st.modules m' hf with h1 | h1 <;>
              rw [h1]
            · exact h'
            · exact module_has_item_append m' item ty' pu' ci' eu' h'
      | none =>
          simp only []
          have hempty : module_has_item ⟨n, []⟩ ty pu ci eu = false := by
            simp [module_has_item]
          simp only [hempty, Bool.false_eq_true, if_false]
          unfold hasItem addItem
          simp only []
          rw [addItemFirst_not_found n item st.modules hn]
          rw [List.find?_append, hf]
          exact h'

theorem syncItemModule_skip (st : CourseState) (ty : String)
    (pu : Option String) (ci : Option Nat) (eu : Option String)
    (item : MItem) (n : String) (h : hasItem st n ty pu ci eu = true) :
    syncItemModule st ty pu ci eu item n = ([], st) := by
  unfold hasItem at h
  cases hf : st.modules.find? (fun m => m.name == n) with
  | none => rw [hf] at h; cases h
  | some m =>
      rw [hf] at h
      have h' : module_has_item m ty pu ci eu = true := h
      unfold syncItemModule ensure_module
      rw [hf]
      simp [h']

theorem syncPageModule_skip (st : CourseState) (t u : String) (i : Int)
    (n : String) (h : hasPage st n u = true) :
    syncPageModule st t u i n = ([], st) :=
  syncItemModule_skip st "Page" (some u) none none (pageItem t i u) n h

theorem syncItemModules_cons (ty : String) (pu : Option String)
    (ci : Option Nat) (eu : Option String) (item : MItem)
    (st : CourseState) (n : String) (ns : List String) :
    syncItemModules ty pu ci eu item st (n :: ns) =
      ((syncItemModule st ty pu ci eu item n).1 ++
        (syncItemModules ty pu ci eu item
          (syncItemModule st ty pu ci eu item n).2 ns).1,
       (syncItemModules ty pu ci eu item
          (syncItemModule st ty pu ci eu item n).2 ns).2) := rfl

theorem syncItemModules_state (ty : String) (pu : Option String)
    (ci : Option Nat) (eu : Option String) (item : MItem)
    (ns : List String) :
    ∀ st : CourseState,
      (syncItemModules ty pu ci eu item st ns).2.pages = st.pages ∧
      (syncItemModules ty pu ci eu item st ns).2.assignments
        = st.assignments ∧
      (syncItemModules ty pu ci eu item st ns).2.files = st.files := by
  induction ns with
  | nil => intro st; exact ⟨rfl, rfl, rfl⟩
  | cons n ns ih =>
      intro st
      have hstep := syncItemModule_state st ty pu ci eu item n
      have hrest := ih (syncItemModule st ty pu ci eu item n).2
      refine ⟨?_, ?_, ?_⟩
      · show (syncItemModules ty pu ci eu item
          (syncItemModule st ty pu ci eu item n).2 ns).2.pages = st.pages
        rw [hrest.1, hstep.1]
      · show (syncItemModules ty pu ci eu item
          (syncItemModule st ty pu ci eu item n).2 ns).2.assignments
            = st.assignments
        rw [hrest.2.1, hstep.2.1]
      · show (syncItemModules ty pu ci eu item
          (syncItemModule st ty pu ci eu item n).2 ns).2.files = st.files
        rw [hrest.2.2, hstep.2.2]

theorem syncItemModules_preserve (ty : String) (pu : Option String)
    (ci : Option Nat) (eu : Option String) (item : MItem)
    (ns : List String) :
    ∀ (st : CourseState) (n' ty' : String) (pu' : Option String)
      (ci' : Option Nat) (eu' : Option String),
      hasItem st n' ty' pu' ci' eu' = true →
      hasItem (syncItemModules ty pu ci eu item st ns).2 n' ty' pu' ci' eu'
        = true := by
  induction ns with
  | nil => intro st n' ty' pu' ci' eu' h; exact h
  | cons n ns ih =>
      intro st n' ty' pu' ci' eu' h
      rw [syncItemModules_cons]
      exact ih _ n' ty' pu' ci' eu'
        (hasItem_preserve st ty pu ci eu item n n' ty' pu' ci' eu' h)

theorem syncItemModules_establish (ty : String) (pu : Option String)
    (ci : Option Nat) (eu : Option String) (item : MItem)
    (hmatch : itemMatchesQuery item ty pu ci eu = true) (ns : List String) :
    ∀ (st : CourseState) (n : String), n ∈ ns →
      hasItem (syncItemModules ty pu ci eu item st ns).2 n ty pu ci eu
        = true := by
  induction ns with
  | nil => intro st n h; cases h
  | cons m ms ih =>
      intro st n h
      rw [syncItemModules_cons]
      rcases List.mem_cons.1 h with rfl | hmem
      · exact syncItemModules_preserve ty pu ci eu item ms _ n ty pu ci eu
          (hasItem_establish st ty pu ci eu item n hmatch)
      · exact ih _ n hmem

theorem syncItemModules_skip (ty : String) (pu : Option String)
    (ci : Option Nat) (eu : Option String) (item : MItem)
    (ns : List String) :
    ∀ st : CourseState, (∀ n ∈ ns, hasItem st n ty pu ci eu = true) →
      syncItemModules ty pu ci eu item st ns = ([], st) := by
  induction ns with
  | nil => intro st _; rfl
  | cons n ns ih =>
      intro st h
      rw [syncItemModules_cons,
        syncItemModule_skip st ty pu ci eu item n (h n (by simp))]
      rw [ih st (fun n' hn' => h n' (by simp [hn']))]
      rfl

theorem syncItemModules_idem (ty : String) (pu : Option String)
    (ci : Option Nat) (eu : Option String) (item : MItem)
    (hmatch : itemMatchesQuery item ty pu ci eu = true) (ns : List String)
    (st : CourseState) :
    (syncItemModules ty pu ci eu item
      (syncItemModules ty pu ci eu item st ns).2 ns).1 = [] := by
  rw [syncItemModules_skip ty pu ci eu item ns _
    (fun n hn =>
      syncItemModules_establish ty pu ci eu item hmatch ns st n hn)]

theorem pageItem_matches (t : String) (i : Int) (u : String) :
    itemMatchesQuery (pageItem t i u) "Page" (some u) none none = true := by
  simp [itemMatchesQuery, pageItem]

theorem assignmentItem_matches (nm : String) (i : Int) (cid : Nat) :
    itemMatchesQuery (assignmentItem nm i cid) "Assignment" none (some cid)
      none = true := by
  simp [itemMatchesQuery, assignmentItem]

theorem fileItem_matches (t : String) (i : Int) (cid : Nat) :
    itemMatchesQuery (fileItem t i cid) "File" none (some cid) none
      = true := by
  simp [itemMatchesQuery, fileItem]

theorem linkItem_matches (nm : String) (i : Int) (eu : String) (nt : Bool) :
    itemMatchesQuery (linkItem nm i eu nt) "ExternalUrl" none none (some eu)
      = true := by
  simp [itemMatchesQuery, linkItem]

theorem sync_page_second_run (st : CourseState) (meta : ContentMeta) :
    (sync_page (sync_page st meta).2 meta).1 = [] := by
  unfold sync_page
  cases hn : meta.name with
  | none => rfl
  | some title =>
      simp only []
      by_cases ht : title = ""
      · simp [ht]
      · simp only [ht, if_false]
        by_cases hm : meta.modules.isEmpty
        · simp [hm]
        · simp only [hm, Bool.false_eq_true, if_false]
          cases hf : find_page st.pages title with
          | none => simp [hf]
          | some page =>
              simp only [hf]
              have hpages :
                  (syncPageModules title page.url meta.indent st
                    meta.modules).2.pages = st.pages :=
                (syncItemModules_state "Page" (some page.url) none none
                  (pageItem title meta.indent page.url) meta.modules st).1
              rw [find_page, hpages, ← find_page, hf]
              show (syncPageModules title page.url meta.indent
                (syncPageModules title page.url meta.indent st
                  meta.modules).2 meta.modules).1 = []
              exact syncItemModules_idem "Page" (some page.url) none none
                (pageItem title meta.indent page.url)
                (pageItem_matches title meta.indent page.url) meta.modules st

theorem sync_assignment_second_run (st : CourseState) (meta : ContentMeta) :
    (sync_assignment (sync_assignment st meta).2 meta).1 = [] := by
  unfold sync_assignment
  cases hn : meta.name with
  | none => rfl
  | some name =>
      simp only []
      by_cases ht : name = ""
      · simp [ht]
      · simp only [ht, if_false]
        by_cases hm : meta.modules.isEmpty
        · simp [hm]
        · simp only [hm, Bool.false_eq_true, if_false]
          cases hf : find_assignment st.assignments name with
          | none => simp [hf]
          | some assignment =>
              simp only [hf]
              have hassigns :
                  (syncItemModules "Assignment" none (some assignment.id)
                    none (assignmentItem name meta.indent assignment.id) st
                    meta.modules).2.assignments = st.assignments :=
                (syncItemModules_state "Assignment" none (some assignment.id)
                  none (assignmentItem name meta.indent assignment.id)
                  meta.modules st).2.1
              rw [find_assignment, hassigns, ← find_assignment, hf]
              exact syncItemModules_idem "Assignment" none
                (some assignment.id) none
                (assignmentItem name meta.indent assignment.id)
                (assignmentItem_matches name meta.indent assignment.id)
                meta.modules st

theorem sync_file_second_run (st : CourseState) (meta : ContentMeta) :
    (sync_file_item (sync_file_item st meta).2 meta).1 = [] := by
  unfold sync_file_item
  cases hn : meta.filename with
  | none => rfl
  | some filename =>
      simp only []
      by_cases ht : filename = ""
      · simp [ht]
      · simp only [ht, if_false]
        by_cases hm : meta.modules.isEmpty
        · simp [hm]
        · simp only [hm, Bool.false_eq_true, if_false]
          cases hf : find_file st.files filename with
          | none => simp [hf]
          | some file_obj =>
              simp only [hf]
              have hfiles :
                  (syncItemModules "File" none (some file_obj.id) none
                    (fileItem (meta.title.getD filename) meta.indent
                      file_obj.id) st meta.modules).2.files = st.files :=
                (syncItemModules_state "File" none (some file_obj.id) none
                  (fileItem (meta.title.getD filename) meta.indent
                    file_obj.id) meta.modules st).2.2
              rw [find_file, hfiles, ← find_file, hf]
              exact syncItemModules_idem "File" none (some file_obj.id) none
                (fileItem (meta.title.getD filename) meta.indent file_obj.id)
                (fileItem_matches (meta.title.getD filename) meta.indent
                  file_obj.id) meta.modules st

theorem sync_link_second_run (st : CourseState) (meta : ContentMeta) :
    (sync_link (sync_link st meta).2 meta).1 = [] := by
  unfold sync_link
  cases he : meta.external_url with
  | none => rfl
  | some external_url =>
      cases hn : meta.name with
      | none => rfl
      | some name =>
          simp only []
          by_cases ht : external_url = "" ∨ name = ""
          · simp [ht]
          · simp only [ht, if_false]
            by_cases hm : meta.modules.isEmpty
            · simp [hm]
            · simp only [hm, Bool.false_eq_true, if_false]
              exact syncItemModules_idem "ExternalUrl" none none
                (some external_url)
                (linkItem name meta.indent external_url meta.new_tab)
                (linkItem_matches name meta.indent external_url meta.new_tab)
                meta.modules st

end SyncModules

/-- C3. Idempotence of the module synchronizer: a second dispatch of any
content descriptor (page, assignment, file, or link kind, or an
unsupported type) on the state the first run produced (local metadata
and remote pages/assignments/files unchanged) issues zero remote
mutations — every declared module already holds the item with the same
type and identity key, so neither `create_module` nor
`create_module_item` is reached. -/
theorem sync_modules_second_run_no_mutations (st : SyncModules.CourseState)
    (meta : SyncModules.ContentMeta) :
    (SyncModules.syncFolder (SyncModules.syncFolder st meta).2 meta).1
      = [] := by
  unfold SyncModules.syncFolder
  by_cases h1 : lowerString (meta.type.getD "") = "page"
  · simp only [if_pos h1]
    exact SyncModules.sync_page_second_run st meta
  · simp only [if_neg h1]
    by_cases h2 : lowerString (meta.type.getD "") = "assignment"
    · simp only [if_pos h2]
      exact SyncModules.sync_assignment_second_run st meta
    · simp only [if_neg h2]
      by_cases h3 : lowerString (meta.type.getD "") = "file"
      · simp only [if_pos h3]
        exact SyncModules.sync_file_second_run st meta
      · simp only [if_neg h3]
        by_cases h4 : lowerString (meta.type.getD "") = "link"
        · simp only [if_pos h4]
          exact SyncModules.sync_link_second_run st meta
        · simp only [if_neg h4]

/-- C8. Identity-based module membership: `module_has_item` is invariant
under retitling every item in the module (it reads only the item type
and the identity key), and a module that already holds a Page item for
the identity key `u` receives no mutation from a re-sync, whatever
display title the local item now carries. -/
theorem module_membership_ignores_titles (f : String → String)
    (m : SyncModules.CModule) (ty : String) (pu : Option String)
    (ci : Option Nat) (eu : Option String) (st : SyncModules.CourseState)
    (n u t2 : String) (i : Int) :
    SyncModules.module_has_item (SyncModules.retitleModule f m) ty pu ci eu =
      SyncModules.module_has_item m ty pu ci eu ∧
    (SyncModules.hasPage st n u = true →
      (SyncModules.syncPageModule st t2 u i n).1 = []) := by
  constructor
  · unfold SyncModules.module_has_item SyncModules.retitleModule
    rw [List.any_map]
    rfl
  · intro h
    rw [SyncModules.syncPageModule_skip st t2 u i n h]

/-- C8 witness: a module holding a Page item titled `Old Title` for the
page url `w1`; re-checking membership after retitling, and re-syncing
under a new local title, mutate nothing. -/
theorem module_membership_ignores_titles_witness :
    SyncModules.module_has_item
      (SyncModules.retitleModule (fun _ => "New Title")
        ⟨"M", [⟨"Page", "Old Title", 0, some "w1", none, none, none⟩]⟩)
      "Page" (some "w1") none none =
      SyncModules.module_has_item
        ⟨"M", [⟨"Page", "Old Title", 0, some "w1", none, none, none⟩]⟩
        "Page" (some "w1") none none ∧
    (SyncModules.syncPageModule
      ⟨[⟨"New Title", "w1"⟩], [], [],
       [⟨"M", [⟨"Page", "Old Title", 0, some "w1", none, none, none⟩]⟩]⟩
      "New Title" "w1" 0 "M").1 = [] := by
  have h := module_membership_ignores_titles (fun _ => "New Title")
    ⟨"M", [⟨"Page", "Old Title", 0, some "w1", none, none, none⟩]⟩
    "Page" (some "w1") none none
    ⟨[⟨"New Title", "w1"⟩], [], [],
     [⟨"M", [⟨"Page", "Old Title", 0, some "w1", none, none, none⟩]⟩]⟩
    "M" "w1" "New Title" 0
  exact ⟨h.1, h.2 (by decide)⟩

/-- C2. The malformed-spec `SystemExit` escapes the per-folder
`except Exception` handler: a batch whose first folder has a rubric spec
with no title aborts before the second (well-formed) folder is ever
processed, although that second folder alone processes fine.  The
escaping error is exactly the non-`Exception` `SystemExit`. -/
theorem rubric_batch_aborts_on_malformed_spec :
    RubricsInline.runFolders exCourse
        [exFolder exBadSpec, exFolder exGoodSpec] =
      ([], some (PyError.systemExit "Rubric spec must define title.")) ∧
    RubricsInline.runFolders exCourse [exFolder exGoodSpec] =
      ([RubricsInline.FolderOutcome.created (some 7)], none) ∧
    (PyError.systemExit "Rubric spec must define title.").isException
      = false := by
  exact ⟨rfl, rfl, rfl⟩

/-- C6 counterexample: an outcome criterion declaring `points: 4` with
no ratings.  With its code absent from the mapping, the rendered
parameters drop the points entirely (they are `none`, not 4), although
the resolvable-code rendering keeps them; one warning is emitted. -/
theorem rubric_outcome_fallback_drops_points_cex :
    exOutcomeCrit.points = some 4 ∧
    (RubricsShared.buildCritParams [] 1 exOutcomeCrit).1.points = none ∧
    (RubricsShared.buildCritParams [("WRIT-1", 9)] 1 exOutcomeCrit).1.points
      = some 4 ∧
    (RubricsShared.buildCritParams [] 1 exOutcomeCrit).2.length = 1 := by
  decide

namespace RubricsShared

theorem buildCriteriaParams_cons (om : List (String × Nat)) (idx : Nat)
    (c : CriterionSpec) (cs : List CriterionSpec) :
    buildCriteriaParams om idx (c :: cs) =
      ((toString idx, (buildCritParams om idx c).1) ::
        (buildCriteriaParams om (idx + 1) cs).1,
       (buildCritParams om idx c).2 ++
        (buildCriteriaParams om (idx + 1) cs).2) := rfl

theorem buildCriteriaParams_length (om : List (String × Nat)) :
    ∀ (cs : List CriterionSpec) (idx : Nat),
      (buildCriteriaParams om idx cs).1.length = cs.length := by
  intro cs
  induction cs with
  | nil => intro idx; rfl
  | cons c cs ih =>
      intro idx
      rw [buildCriteriaParams_cons]
      simp [ih]

end RubricsShared

/-- C6 (amended). Outcome fallback: a criterion of kind `outcome` whose
non-empty code is absent from the outcome mapping is rendered exactly as
the same criterion of kind `local` would be — its ratings are kept, its
outcome linkage and any explicit top-level `points` value are dropped
(as for every local criterion) — with exactly one warning; the whole
rubric is still built, with one rendered criterion per spec
criterion. -/
theorem rubric_outcome_fallback_renders_local (om : List (String × Nat))
    (idx : Nat) (crit : CriterionSpec) (code : String) (spec : RubricSpec)
    (hkind : crit.kind = some "outcome")
    (hcode : crit.outcome_code = some code) (hne : code ≠ "")
    (hmiss : RubricsShared.lookupOutcome om code = none) :
    (RubricsShared.buildCritParams om idx crit).1 =
      (RubricsShared.buildCritParams om idx
        { crit with kind := some "local" }).1 ∧
    (RubricsShared.buildCritParams om idx crit).2.length = 1 ∧
    (RubricsShared.build_rubric_params spec om).1.criteria.length
      = spec.criteria.length := by
  refine ⟨?_, ?_, ?_⟩
  · simp [RubricsShared.buildCritParams, hkind, hcode, hne, hmiss]
  · simp [RubricsShared.buildCritParams, hkind, hcode, hne, hmiss]
  · unfold RubricsShared.build_rubric_params
    show (RubricsShared.buildCriteriaParams om 1 spec.criteria).1.length
      = spec.criteria.length
    exact RubricsShared.buildCriteriaParams_length om spec.criteria 1

/-- C6 witness: the amended outcome-fallback theorem applied to the
concrete `WRIT-1` criterion against an empty outcome mapping. -/
theorem rubric_outcome_fallback_witness :
    (RubricsShared.buildCritParams [] 1 exOutcomeCrit).1 =
      (RubricsShared.buildCritParams [] 1
        { exOutcomeCrit with kind := some "local" }).1 ∧
    (RubricsShared.buildCritParams [] 1 exOutcomeCrit).2.length = 1 ∧
    (RubricsShared.build_rubric_params exGoodSpec []).1.criteria.length
      = exGoodSpec.criteria.length := by
  exact rubric_outcome_fallback_renders_local [] 1 exOutcomeCrit "WRIT-1"
    exGoodSpec rfl rfl (by decide) rfl

namespace RubricsCsv

theorem foldl_max_ge_init (rs : List RatingSpec) :
    ∀ init : ℚ,
      init ≤ rs.foldl (fun m x => max m (ratingPointsOrZero x)) init := by
  induction rs with
  | nil => intro init; exact le_refl _
  | cons r rs ih =>
      intro init
      exact le_trans (le_max_left _ _) (ih (max init (ratingPointsOrZero r)))

theorem foldl_max_ge_elem (rs : List RatingSpec) :
    ∀ (init : ℚ) (x : RatingSpec), x ∈ rs →
      ratingPointsOrZero x ≤
        rs.foldl (fun m y => max m (ratingPointsOrZero y)) init := by
  induction rs with
  | nil => intro init x hx; cases hx
  | cons r rs ih =>
      intro init x hx
      rcases List.mem_cons.1 hx with rfl | hmem
      · exact le_trans (le_max_right init (ratingPointsOrZero x))
          (foldl_max_ge_init rs (max init (ratingPointsOrZero x)))
      · exact ih (max init (ratingPointsOrZero r)) x hmem

theorem foldl_max_mem (rs : List RatingSpec) :
    ∀ init : ℚ,
      rs.foldl (fun m x => max m (ratingPointsOrZero x)) init = init ∨
      rs.foldl (fun m x => max m (ratingPointsOrZero x)) init ∈
        rs.map ratingPointsOrZero := by
  induction rs with
  | nil => intro init; exact Or.inl rfl
  | cons r rs ih =>
      intro init
      rcases ih (max init (ratingPointsOrZero r)) with h | h
      · rcases max_choice init (ratingPointsOrZero r) with hm | hm
        · left
          show rs.foldl _ (max init (ratingPointsOrZero r)) = init
          rw [h, hm]
        · right
          show rs.foldl _ (max init (ratingPointsOrZero r)) ∈ _
          rw [h, hm]
          simp
      · right
        show rs.foldl _ (max init (ratingPointsOrZero r)) ∈ _
        simp [h]

theorem maxRatingPoints_is_max (r : RatingSpec) (rs : List RatingSpec) :
    maxRatingPoints (r :: rs) ∈ (r :: rs).map ratingPointsOrZero ∧
    ∀ x ∈ (r :: rs).map ratingPointsOrZero, x ≤ maxRatingPoints (r :: rs) := by
  constructor
  · rcases foldl_max_mem rs (ratingPointsOrZero r) with h | h
    · show rs.foldl _ _ ∈ _
      rw [h]
      simp
    · show rs.foldl _ _ ∈ _
      simp [h]
  · intro x hx
    rcases List.mem_map.1 hx with ⟨y, hy, rfl⟩
    rcases List.mem_cons.1 hy with rfl | hmem
    · exact foldl_max_ge_init rs (ratingPointsOrZero y)
    · exact foldl_max_ge_elem rs (ratingPointsOrZero r) y hmem

theorem rubricCsvRow_points_cell (crit : CriterionSpec) :
    (rubricCsvRow crit)[2]? = some (Cell.q (critPoints crit)) := by
  show (Cell.s (crit.description.getD "") ::
    Cell.s (crit.long_description.getD "") ::
    Cell.q (critPoints crit) :: _)[2]? = _
  simp

end RubricsCsv

/-- C5. Points authority: in the CSV rendering, the Points cell of a
criterion row is the explicit `points` value whenever the key is set
(whatever the ratings say); with `points` absent it is the maximum
rating point value, or 0 when there are no ratings.  In the inline
payload, a criterion with explicit points uploads exactly that value in
its points field. -/
theorem rubric_points_explicit_authoritative (crit : CriterionSpec) (p : ℚ)
    (i : Nat) (pl : List (String × RubricsInline.Value)) :
    ((crit.points = some p →
        (RubricsCsv.rubricCsvRow crit)[2]? = some (RubricsCsv.Cell.q p)) ∧
     (crit.points = none → crit.ratings = [] →
        (RubricsCsv.rubricCsvRow crit)[2]? = some (RubricsCsv.Cell.q 0)) ∧
     (crit.points = none → crit.ratings ≠ [] →
        (RubricsCsv.rubricCsvRow crit)[2]? =
          some (RubricsCsv.Cell.q (RubricsCsv.maxRatingPoints crit.ratings)) ∧
        RubricsCsv.maxRatingPoints crit.ratings ∈
          crit.ratings.map RubricsCsv.ratingPointsOrZero ∧
        ∀ x ∈ crit.ratings.map RubricsCsv.ratingPointsOrZero,
          x ≤ RubricsCsv.maxRatingPoints crit.ratings)) ∧
    (crit.points = some p →
      RubricsInline.criterionEntries i crit = .ok pl →
      (("rubric[criteria][" ++ toString i ++ "]") ++ "[points]",
        RubricsInline.Value.q p) ∈ pl) := by
  refine ⟨⟨?_, ?_, ?_⟩, ?_⟩
  · intro hp
    rw [RubricsCsv.rubricCsvRow_points_cell]
    simp [RubricsCsv.critPoints, hp]
  · intro hp hr
    rw [RubricsCsv.rubricCsvRow_points_cell]
    simp [RubricsCsv.critPoints, hp, hr]
  · intro hp hr
    refine ⟨?_, ?_⟩
    · rw [RubricsCsv.rubricCsvRow_points_cell]
      have hne : crit.ratings.isEmpty = false := by
        cases h : crit.ratings with
        | nil => exact absurd h hr
        | cons a l => rfl
      simp [RubricsCsv.critPoints, hp, hne]
    · cases h : crit.ratings with
      | nil => exact absurd h hr
      | cons r rs =>
          have := RubricsCsv.maxRatingPoints_is_max r rs
          exact ⟨this.1, this.2⟩
  · intro hp hok
    unfold RubricsInline.criterionEntries at hok
    split at hok
    · cases hok
    · by_cases hu : crit.use_range
      · simp only [hu, if_true] at hok
        split at hok
        · have hpl := Except.ok.inj hok
          rw [← hpl]
          refine List.mem_append.2 (Or.inl ?_)
          have hgd : crit.points.getD 0 = p := by rw [hp]; rfl
          rw [hgd]
          simp
        · cases hok
      · simp only [hu, Bool.false_eq_true, if_false] at hok
        split at hok
        · have hpl := Except.ok.inj hok
          rw [← hpl]
          refine List.mem_append.2 (Or.inl ?_)
          have hgd : crit.points.getD 0 = p := by rw [hp]; rfl
          rw [hgd]
          simp
        · cases hok

/-- C5 witness: the points-authority theorem applied to the criterion
declaring `points: 10` whose single rating carries 7 points — the CSV
cell and the inline payload both carry 10, not 7. -/
theorem rubric_points_witness :
    exPointsCrit.points = some 10 ∧
    (RubricsCsv.rubricCsvRow exPointsCrit)[2]? =
      some (RubricsCsv.Cell.q 10) ∧
    RubricsInline.criterionEntries 0 exPointsCrit = .ok exPointsPayload ∧
    ("rubric[criteria][0][points]", RubricsInline.Value.q 10)
      ∈ exPointsPayload := by
  have h := rubric_points_explicit_authoritative exPointsCrit 10 0
    exPointsPayload
  refine ⟨rfl, h.1.1 rfl, by decide, ?_⟩
  have hmem := h.2 rfl (by decide)
  simpa using hmem

namespace RubricsCsv

theorem specRatingSlots_length :
    ∀ (n : Nat) (rs : List RatingSpec),
      (specRatingSlots rs n).length = 2 * n := by
  intro n
  induction n with
  | zero => intro rs; cases rs <;> rfl
  | succ n ih =>
      intro rs
      cases rs with
      | nil =>
          show (Cell.s "" :: Cell.s "" :: specRatingSlots [] n).length = _
          simp [ih]
          omega
      | cons r rs =>
          show (Cell.s _ :: Cell.q _ :: specRatingSlots rs n).length = _
          simp [ih]
          omega

theorem ratingSlots_eq_spec (rs : List RatingSpec) :
    (rs.take 4).flatMap ratingCells ++
      List.replicate (2 * (4 - min rs.length 4)) (Cell.s "") =
    specRatingSlots rs 4 := by
  rcases rs with _ | ⟨a, _ | ⟨b, _ | ⟨c, _ | ⟨d, tl⟩⟩⟩⟩
  · rfl
  · rfl
  · rfl
  · rfl
  · have h4 : min (tl.length + 4) 4 = 4 := by omega
    show (List.take 4 (a :: b :: c :: d :: tl)).flatMap ratingCells ++
      List.replicate (2 * (4 - min (a :: b :: c :: d :: tl).length 4))
        (Cell.s "") = _
    simp only [List.length_cons]
    have h4' : min (tl.length + 1 + 1 + 1 + 1) 4 = 4 := by omega
    rw [h4']
    simp [specRatingSlots, ratingCells]

end RubricsCsv

/-- C10. The CSV row renders exactly four rating slots: the first four
ratings in order, with empty-cell padding for slots the criterion does
not fill; ratings past the fourth contribute nothing, and every row has
exactly 11 cells. -/
theorem rubric_csv_four_rating_slots (crit : CriterionSpec) :
    RubricsCsv.rubricCsvRow crit =
      RubricsCsv.Cell.s (crit.description.getD "") ::
      RubricsCsv.Cell.s (crit.long_description.getD "") ::
      RubricsCsv.Cell.q (RubricsCsv.critPoints crit) ::
      RubricsCsv.specRatingSlots crit.ratings 4 ∧
    (RubricsCsv.rubricCsvRow crit).length = 11 := by
  have hrow : RubricsCsv.rubricCsvRow crit =
      RubricsCsv.Cell.s (crit.description.getD "") ::
      RubricsCsv.Cell.s (crit.long_description.getD "") ::
      RubricsCsv.Cell.q (RubricsCsv.critPoints crit) ::
      RubricsCsv.specRatingSlots crit.ratings 4 := by
    show RubricsCsv.Cell.s (crit.description.getD "") ::
      RubricsCsv.Cell.s (crit.long_description.getD "") ::
      RubricsCsv.Cell.q (RubricsCsv.critPoints crit) ::
      ((crit.ratings.take 4).flatMap RubricsCsv.ratingCells ++
        List.replicate (2 * (4 - min crit.ratings.length 4))
          (RubricsCsv.Cell.s "")) = _
    rw [RubricsCsv.ratingSlots_eq_spec]
  refine ⟨hrow, ?_⟩
  rw [hrow]
  simp [RubricsCsv.specRatingSlots_length]

namespace RubricsCsv

theorem poll_cons (tmo : ℚ) (step : PollStep) (rest : List PollStep) :
    poll_rubric_upload_status tmo (step :: rest) =
      if step.status ≠ 200 then
        .err (.runtimeError ("Rubric upload status error " ++
          toString step.status))
      else
        if successStates.contains (step.state.getD "") then
          .ok step.rubric_id
        else if failureStates.contains (step.state.getD "") then
          .err (.runtimeError ("Rubric upload failed with state " ++
            step.state.getD ""))
        else if step.elapsed > tmo then
          .err (.timeoutError
            "Timed out waiting for rubric upload to complete")
        else poll_rubric_upload_status tmo rest := rfl

theorem poll_step_nonterminal (tmo : ℚ) (p : PollStep)
    (rest : List PollStep) (h : nonTerminalWithin tmo p = true) :
    poll_rubric_upload_status tmo (p :: rest) =
      poll_rubric_upload_status tmo rest := by
  unfold nonTerminalWithin at h
  simp only [Bool.and_eq_true, beq_iff_eq, Bool.not_eq_true',
    decide_eq_true_eq] at h
  obtain ⟨⟨⟨hstatus, hsucc⟩, hfail⟩, htime⟩ := h
  rw [poll_cons]
  rw [if_neg (by rw [hstatus]; exact fun hc => hc rfl)]
  simp only [hsucc, Bool.false_eq_true, if_false]
  simp only [hfail, Bool.false_eq_true, if_false]
  rw [if_neg (not_lt.2 htime)]

theorem poll_skip_nonterminal (tmo : ℚ) :
    ∀ pre rest : List PollStep,
      pre.all (nonTerminalWithin tmo) = true →
      poll_rubric_upload_status tmo (pre ++ rest) =
        poll_rubric_upload_status tmo rest := by
  intro pre
  induction pre with
  | nil => intro rest _; rfl
  | cons p ps ih =>
      intro rest hall
      rw [List.all_cons, Bool.and_eq_true] at hall
      rw [List.cons_append, poll_step_nonterminal tmo p _ hall.1]
      exact ih rest hall.2

end RubricsCsv

/-- C9. The polling loop runs until a terminal state or the timeout:
after any prefix of non-terminal in-time responses, a success state
returns the rubric id, an explicit failure state raises `RuntimeError`,
and a non-terminal response past the timeout raises `TimeoutError`; the
two errors are distinct values, both are `Exception`s, and the async
folder loop catches any `Exception` and continues with the remaining
folders. -/
theorem rubric_poll_timeout_distinct_and_caught (tmo : ℚ)
    (pre : List RubricsCsv.PollStep) (st : RubricsCsv.PollStep)
    (rest : List RubricsCsv.PollStep)
    (flows : List (Except PyError Unit)) (e : PyError)
    (hpre : pre.all (RubricsCsv.nonTerminalWithin tmo) = true)
    (hstatus : st.status = 200) :
    ((RubricsCsv.successStates.contains (st.state.getD "") = false →
      RubricsCsv.failureStates.contains (st.state.getD "") = false →
      st.elapsed > tmo →
      RubricsCsv.poll_rubric_upload_status tmo (pre ++ st :: rest) =
        .err (.timeoutError
          "Timed out waiting for rubric upload to complete")) ∧
     (RubricsCsv.failureStates.contains (st.state.getD "") = true →
      RubricsCsv.successStates.contains (st.state.getD "") = false →
      RubricsCsv.poll_rubric_upload_status tmo (pre ++ st :: rest) =
        .err (.runtimeError
          ("Rubric upload failed with state " ++ st.state.getD ""))) ∧
     (RubricsCsv.successStates.contains (st.state.getD "") = true →
      RubricsCsv.poll_rubric_upload_status tmo (pre ++ st :: rest) =
        .ok st.rubric_id)) ∧
    (∀ m1 m2 : String, PyError.timeoutError m1 ≠ PyError.runtimeError m2) ∧
    (PyError.timeoutError
      "Timed out waiting for rubric upload to complete").isException
        = true ∧
    (PyError.runtimeError
      ("Rubric upload failed with state " ++ st.state.getD "")).isException
        = true ∧
    (e.isException = true →
      RubricsCsv.runAsyncFolders (.error e :: flows) =
        ((false :: (RubricsCsv.runAsyncFolders flows).1),
         (RubricsCsv.runAsyncFolders flows).2)) := by
  refine ⟨⟨?_, ?_, ?_⟩, ?_, rfl, rfl, ?_⟩
  · intro hsucc hfail htime
    rw [RubricsCsv.poll_skip_nonterminal tmo pre _ hpre,
      RubricsCsv.poll_cons]
    rw [if_neg (by rw [hstatus]; exact fun hc => hc rfl)]
    simp only [hsucc, Bool.false_eq_true, if_false]
    simp only [hfail, Bool.false_eq_true, if_false]
    rw [if_pos htime]
  · intro hfail hsucc
    rw [RubricsCsv.poll_skip_nonterminal tmo pre _ hpre,
      RubricsCsv.poll_cons]
    rw [if_neg (by rw [hstatus]; exact fun hc => hc rfl)]
    simp only [hsucc, Bool.false_eq_true, if_false]
    simp only [hfail, if_true]
  · intro hsucc
    rw [RubricsCsv.poll_skip_nonterminal tmo pre _ hpre,
      RubricsCsv.poll_cons]
    rw [if_neg (by rw [hstatus]; exact fun hc => hc rfl)]
    simp only [hsucc, if_true]
  · intro m1 m2 hc
    cases hc
  · intro hexc
    have hhandle : RubricsCsv.handleFolderErrors (.error e) = .ok false := by
      show (if e.isException = true then (Except.ok false : Except PyError Bool)
        else .error e) = .ok false
      rw [hexc]
      rfl
    have hcons : RubricsCsv.runAsyncFolders (.error e :: flows) =
        (match RubricsCsv.handleFolderErrors (.error e) with
         | .ok b => (b :: (RubricsCsv.runAsyncFolders flows).1,
             (RubricsCsv.runAsyncFolders flows).2)
         | .error e2 => ([], some e2)) := rfl
    rw [hcons, hhandle]

/-- C9 witness: a trace with one in-time processing poll followed by a
processing poll at 61 s against a 60 s timeout raises the timeout
error; a trace ending in `failed` raises the runtime error; the two are
distinct, both caught, and the batch continues past a folder whose flow
raised the timeout. -/
theorem rubric_poll_timeout_witness :
    RubricsCsv.poll_rubric_upload_status 60
        [⟨200, some "processing", none, 1⟩,
         ⟨200, some "processing", none, 61⟩] =
      .err (.timeoutError
        "Timed out waiting for rubric upload to complete") ∧
    RubricsCsv.poll_rubric_upload_status 60
        [⟨200, some "processing", none, 1⟩,
         ⟨200, some "failed", none, 2⟩] =
      .err (.runtimeError ("Rubric upload failed with state " ++ "failed")) ∧
    (PyError.timeoutError "Timed out waiting for rubric upload to complete"
      ≠ PyError.runtimeError ("Rubric upload failed with state "
        ++ "failed")) ∧
    RubricsCsv.runAsyncFolders
        [.error (.timeoutError
          "Timed out waiting for rubric upload to complete"),
         .ok ()] =
      ([false, true], none) := by
  have h1 := rubric_poll_timeout_distinct_and_caught 60
    [⟨200, some "processing", none, 1⟩] ⟨200, some "processing", none, 61⟩
    [] [Except.ok ()]
    (.timeoutError "Timed out waiting for rubric upload to complete")
    (by decide) rfl
  have h2 := rubric_poll_timeout_distinct_and_caught 60
    [⟨200, some "processing", none, 1⟩] ⟨200, some "failed", none, 2⟩
    [] [] (.runtimeError "x") (by decide) rfl
  refine ⟨h1.1.1 (by decide) (by decide) (by decide),
          h2.1.2.1 (by decide) (by decide), ?_, ?_⟩
  · intro hc
    cases hc
  · have h3 := h1.2.2.2.2 rfl
    rw [h3]
    rfl
